import Mathlib

/-!
# SkCamera: 3-D transform, patch, camera and view stack

Shallow embedding of `src/effects/SkCamera.cpp`, following the
`SK_SCALAR_IS_FLOAT` branch of the source.  Scalars (`SkScalar`,
`SkUnitScalar`) are idealised as elements of a linear ordered field `α`, so
`+`, `-` and `*` are exact; `SkScalarMul` and `SkUnitScalarMul` are the
product, `SK_Scalar1` and `SK_UnitScalar1` are `1`, and `SkIntToScalar(576)` is
`576`.  The one division the source performs without a guard (`prod / denom`
in `SkScalarDotDiv`) is modelled as a fallible operation.  Where rounding
decides which branch the code takes, the derivation is followed a second time
in binary32 arithmetic (`Binary32`).

A `const SkScalar*` is modelled as the function `k ↦ p[k]` of the scalars that
can be read through it, and `p += step` as the shift of that function.  An
index past the end of the object pointed into, which the source never reads,
yields `0`.
-/

namespace SkCamera

variable {α : Type} [LinearOrderedField α]

/-! ## Scalar library -/

/-- Scalar routines that the source calls and that are declared outside
`SkCamera.cpp`; they are parameters of the embedding.  `SkScalarSinCos`
returns the sine and stores the cosine through its pointer argument: the
pair is `(sine, cosine)`. -/
structure ScalarLib (α : Type) where
  sk_float_sqrt : α → α
  SkDegreesToRadians : α → α
  SkScalarSinCos : α → α × α

/-- The loop shared by `SkScalarDot` and `SkScalarDotDiv`:
`prod += a[0] * b[0]; a += step_a; b += step_b;` repeated `count` times. -/
def dotLoop (step_a step_b : Nat) : Nat → (Nat → α) → (Nat → α) → α → α
  | 0, _, _, prod => prod
  | n + 1, a, b, prod =>
      dotLoop step_a step_b n (fun k => a (k + step_a)) (fun k => b (k + step_b))
        (prod + a 0 * b 0)

/-- `SkScalarDot(count, a, step_a, b, step_b)`. -/
def SkScalarDot (count : Nat) (a : Nat → α) (step_a : Nat) (b : Nat → α) (step_b : Nat) : α :=
  dotLoop step_a step_b count a b 0

/-- `SkScalarDotDiv(count, a, step_a, b, step_b, denom)`: the accumulated
product divided by `denom`.  The source divides unconditionally; the quotient
by a zero denominator is not a scalar value (an infinity or a NaN in the float
build) and is `none` here. -/
def SkScalarDotDiv (count : Nat) (a : Nat → α) (step_a : Nat) (b : Nat → α) (step_b : Nat)
    (denom : α) : Option α :=
  if denom = 0 then none else some (dotLoop step_a step_b count a b 0 / denom)

/-! ## Points and vectors -/

/-- `SkPoint3D`: three scalars `fX, fY, fZ`. -/
structure SkPoint3D (α : Type) where
  fX : α
  fY : α
  fZ : α
deriving DecidableEq

/-- `typedef SkPoint3D SkVector3D`. -/
abbrev SkVector3D (α : Type) := SkPoint3D α

/-- `SkUnit3D` has the same three members `fX, fY, fZ`; the source reinterprets
one as the other through pointer casts, which are the identity here. -/
abbrev SkUnit3D (α : Type) := SkPoint3D α

/-- The scalars read through `&p.fX`. -/
def SkPoint3D.ptr (p : SkPoint3D α) : Nat → α
  | 0 => p.fX
  | 1 => p.fY
  | 2 => p.fZ
  | _ => 0

/-! ## SkMatrix3D -/

/-- `SkMatrix3D`: `SkScalar fMat[3][4]`; field `mij` is `fMat[i][j]`. -/
structure SkMatrix3D (α : Type) where
  m00 : α
  m01 : α
  m02 : α
  m03 : α
  m10 : α
  m11 : α
  m12 : α
  m13 : α
  m20 : α
  m21 : α
  m22 : α
  m23 : α
deriving DecidableEq

namespace SkMatrix3D

/-- The twelve scalars of `fMat` in row-major storage order. -/
def flat (m : SkMatrix3D α) : Nat → α
  | 0 => m.m00
  | 1 => m.m01
  | 2 => m.m02
  | 3 => m.m03
  | 4 => m.m10
  | 5 => m.m11
  | 6 => m.m12
  | 7 => m.m13
  | 8 => m.m20
  | 9 => m.m21
  | 10 => m.m22
  | 11 => m.m23
  | _ => 0

/-- The scalars read through `&fMat[i][j]`. -/
def ptr (m : SkMatrix3D α) (i j : Nat) : Nat → α :=
  fun k => m.flat (4 * i + j + k)

/-- `SkMatrix3D::reset`: `memset` to zero, then the diagonal is `SK_Scalar1`. -/
def reset : SkMatrix3D α :=
  { m00 := 1, m01 := 0, m02 := 0, m03 := 0,
    m10 := 0, m11 := 1, m12 := 0, m13 := 0,
    m20 := 0, m21 := 0, m22 := 1, m23 := 0 }

/-- `SkMatrix3D::setTranslate`: `memset` to zero, then the diagonal is `x, y, z`. -/
def setTranslate (x y z : α) : SkMatrix3D α :=
  { m00 := x, m01 := 0, m02 := 0, m03 := 0,
    m10 := 0, m11 := y, m12 := 0, m13 := 0,
    m20 := 0, m21 := 0, m22 := z, m23 := 0 }

/-- Modelled from the spec: `SkMatrix3D::setRow(row, a, b, c, d = 0)` is an
inline member of the header `SkCamera.h`, which is not among the sources; it
stores `a, b, c, d` into `fMat[row][0..3]`.  Its fourth argument defaults to
`0`; the callers in `SkCamera.cpp` pass three values, so `d` is `0` at each
call below. -/
def setRow (m : SkMatrix3D α) (row : Nat) (a b c d : α) : SkMatrix3D α :=
  match row with
  | 0 => { m with m00 := a, m01 := b, m02 := c, m03 := d }
  | 1 => { m with m10 := a, m11 := b, m12 := c, m13 := d }
  | 2 => { m with m20 := a, m21 := b, m22 := c, m23 := d }
  | _ => m

/-- `SkMatrix3D::setRotateX(degX)`. -/
def setRotateX (L : ScalarLib α) (m : SkMatrix3D α) (degX : α) : SkMatrix3D α :=
  let sc := L.SkScalarSinCos (L.SkDegreesToRadians degX)
  let s := sc.1
  let c := sc.2
  ((m.setRow 0 1 0 0 0).setRow 1 0 c (-s) 0).setRow 2 0 s c 0

/-- `SkMatrix3D::setRotateY(degY)`. -/
def setRotateY (L : ScalarLib α) (m : SkMatrix3D α) (degY : α) : SkMatrix3D α :=
  let sc := L.SkScalarSinCos (L.SkDegreesToRadians degY)
  let s := sc.1
  let c := sc.2
  ((m.setRow 0 c 0 (-s) 0).setRow 1 0 1 0 0).setRow 2 s 0 c 0

/-- `SkMatrix3D::setRotateZ(degZ)`. -/
def setRotateZ (L : ScalarLib α) (m : SkMatrix3D α) (degZ : α) : SkMatrix3D α :=
  let sc := L.SkScalarSinCos (L.SkDegreesToRadians degZ)
  let s := sc.1
  let c := sc.2
  ((m.setRow 0 c (-s) 0 0).setRow 1 s c 0 0).setRow 2 0 0 1 0

/-- The array `SkScalar col[3] = { x, y, z }` of `preTranslate`. -/
def col (x y z : α) : Nat → α
  | 0 => x
  | 1 => y
  | 2 => z
  | _ => 0

/-- `SkMatrix3D::preTranslate(x, y, z)`: for `i = 0, 1, 2`,
`fMat[i][3] += SkScalarDot(3, &fMat[i][0], 1, col, 1)`. -/
def preTranslate (m : SkMatrix3D α) (x y z : α) : SkMatrix3D α :=
  { m with
    m03 := m.m03 + SkScalarDot 3 (m.ptr 0 0) 1 (col x y z) 1,
    m13 := m.m13 + SkScalarDot 3 (m.ptr 1 0) 1 (col x y z) 1,
    m23 := m.m23 + SkScalarDot 3 (m.ptr 2 0) 1 (col x y z) 1 }

/-- `SkMatrix3D::setConcat(a, b)`, the value stored into `*this`.  The source
writes every entry of the destination (a temporary when `this` aliases an
operand) from `a` and `b`: for `i, j < 3`,
`c[i][j] = SkScalarDot(3, &a[i][0], 1, &b[0][j], 4)` and
`c[i][3] = SkScalarDot(3, &a[i][0], 1, &b[0][3], 4) + a[i][3]`. -/
def setConcat (a b : SkMatrix3D α) : SkMatrix3D α :=
  { m00 := SkScalarDot 3 (a.ptr 0 0) 1 (b.ptr 0 0) 4,
    m01 := SkScalarDot 3 (a.ptr 0 0) 1 (b.ptr 0 1) 4,
    m02 := SkScalarDot 3 (a.ptr 0 0) 1 (b.ptr 0 2) 4,
    m03 := SkScalarDot 3 (a.ptr 0 0) 1 (b.ptr 0 3) 4 + a.m03,
    m10 := SkScalarDot 3 (a.ptr 1 0) 1 (b.ptr 0 0) 4,
    m11 := SkScalarDot 3 (a.ptr 1 0) 1 (b.ptr 0 1) 4,
    m12 := SkScalarDot 3 (a.ptr 1 0) 1 (b.ptr 0 2) 4,
    m13 := SkScalarDot 3 (a.ptr 1 0) 1 (b.ptr 0 3) 4 + a.m13,
    m20 := SkScalarDot 3 (a.ptr 2 0) 1 (b.ptr 0 0) 4,
    m21 := SkScalarDot 3 (a.ptr 2 0) 1 (b.ptr 0 1) 4,
    m22 := SkScalarDot 3 (a.ptr 2 0) 1 (b.ptr 0 2) 4,
    m23 := SkScalarDot 3 (a.ptr 2 0) 1 (b.ptr 0 3) 4 + a.m23 }

/-- `SkMatrix3D::preRotateX(degX)`: a local matrix `m` (not initialised, its
prior contents are `tmp`) is set to the rotation and concatenated on the
right. -/
def preRotateX (L : ScalarLib α) (tmp : SkMatrix3D α) (self : SkMatrix3D α) (degX : α) :
    SkMatrix3D α :=
  setConcat self (setRotateX L tmp degX)

/-- `SkMatrix3D::preRotateY(degY)`. -/
def preRotateY (L : ScalarLib α) (tmp : SkMatrix3D α) (self : SkMatrix3D α) (degY : α) :
    SkMatrix3D α :=
  setConcat self (setRotateY L tmp degY)

/-- `SkMatrix3D::preRotateZ(degZ)`. -/
def preRotateZ (L : ScalarLib α) (tmp : SkMatrix3D α) (self : SkMatrix3D α) (degZ : α) :
    SkMatrix3D α :=
  setConcat self (setRotateZ L tmp degZ)

/-- `SkMatrix3D::mapPoint(src, dst)`, the value stored into `*dst`. -/
def mapPoint (m : SkMatrix3D α) (src : SkPoint3D α) : SkPoint3D α :=
  { fX := SkScalarDot 3 (m.ptr 0 0) 1 src.ptr 1 + m.m03,
    fY := SkScalarDot 3 (m.ptr 1 0) 1 src.ptr 1 + m.m13,
    fZ := SkScalarDot 3 (m.ptr 2 0) 1 src.ptr 1 + m.m23 }

/-- `SkMatrix3D::mapVector(src, dst)`, the value stored into `*dst`. -/
def mapVector (m : SkMatrix3D α) (src : SkVector3D α) : SkVector3D α :=
  { fX := SkScalarDot 3 (m.ptr 0 0) 1 src.ptr 1,
    fY := SkScalarDot 3 (m.ptr 1 0) 1 src.ptr 1,
    fZ := SkScalarDot 3 (m.ptr 2 0) 1 src.ptr 1 }

end SkMatrix3D

/-! ## Unit vectors -/

/-- `SkPoint3D::normalize(unit)`: the returned magnitude and the contents of
`*unit` after the call; `unit` is written only when the magnitude is
non-zero.  The argument `unit` is the content of `*unit` before the call. -/
def SkPoint3D.normalize (L : ScalarLib α) (p : SkPoint3D α) (unit : SkUnit3D α) :
    α × SkUnit3D α :=
  let mag := L.sk_float_sqrt (p.fX * p.fX + p.fY * p.fY + p.fZ * p.fZ)
  if mag ≠ 0 then
    let scale := 1 / mag
    (mag, { fX := p.fX * scale, fY := p.fY * scale, fZ := p.fZ * scale })
  else
    (mag, unit)

/-- `SkUnit3D::Dot(a, b)`. -/
def SkUnit3D.Dot (a b : SkUnit3D α) : α :=
  a.fX * b.fX + a.fY * b.fY + a.fZ * b.fZ

/-- `SkUnit3D::Cross(a, b, cross)`, the value stored into `*cross`; the three
products are those of the source, line by line. -/
def SkUnit3D.Cross (a b : SkUnit3D α) : SkUnit3D α :=
  let x := a.fY * b.fZ - a.fZ * b.fY
  let y := a.fZ * b.fX - a.fX * b.fY
  let z := a.fX * b.fY - a.fY * b.fX
  { fX := x, fY := y, fZ := z }

/-! ## SkPatch3D -/

/-- `SkPatch3D`: the basis vectors `fU`, `fV` and the point `fOrigin`. -/
structure SkPatch3D (α : Type) where
  fU : SkVector3D α
  fV : SkVector3D α
  fOrigin : SkPoint3D α
deriving DecidableEq

namespace SkPatch3D

/-- `SkPatch3D::reset` (also the constructor). -/
def reset : SkPatch3D α :=
  { fOrigin := { fX := 0, fY := 0, fZ := 0 },
    fU := { fX := 1, fY := 0, fZ := 0 },
    fV := { fX := 0, fY := -1, fZ := 0 } }

/-- `SkPatch3D::transform(m, dst)`, the value stored into `*dst` (which is
`*this` when `dst` is `NULL`). -/
def transform (p : SkPatch3D α) (m : SkMatrix3D α) : SkPatch3D α :=
  { fU := m.mapVector p.fU,
    fV := m.mapVector p.fV,
    fOrigin := m.mapPoint p.fOrigin }

/-- `SkPatch3D::dotWith(dx, dy, dz)`; the three products `cx, cy, cz` are those
of the source, line by line. -/
def dotWith (p : SkPatch3D α) (dx dy dz : α) : α :=
  let cx := p.fU.fY * p.fV.fZ - p.fU.fZ * p.fV.fY
  let cy := p.fU.fZ * p.fV.fX - p.fU.fX * p.fV.fY
  let cz := p.fU.fX * p.fV.fY - p.fU.fY * p.fV.fX
  cx * dx + cy * dy + cz * dz

/-- Modelled from the spec: the member order of `SkPatch3D` is declared in
`SkCamera.h`, which is not among the sources.  The scalars read through
`(const SkScalar*)&quilt` are those of `fU`, then `fV`, then `fOrigin`
(the projection takes "the rows u, v of the patch" in that order). -/
def ptr (p : SkPatch3D α) : Nat → α
  | 0 => p.fU.fX
  | 1 => p.fU.fY
  | 2 => p.fU.fZ
  | 3 => p.fV.fX
  | 4 => p.fV.fY
  | 5 => p.fV.fZ
  | 6 => p.fOrigin.fX
  | 7 => p.fOrigin.fY
  | 8 => p.fOrigin.fZ
  | _ => 0

end SkPatch3D

/-! ## SkMatrix, the 2-D matrix written by the projection -/

/-- Modelled from the spec: `SkMatrix` is declared in `SkMatrix.h`, which is
not among the sources.  It holds nine scalars in the slot order scale-x,
skew-x, translate-x, skew-y, scale-y, translate-y, persp-0, persp-1,
persp-2, and the enumerators `kMScaleX` to `kMPersp2` number the slots `0` to
`8` in that order. -/
structure SkMatrix (β : Type) where
  scaleX : β
  skewX : β
  transX : β
  skewY : β
  scaleY : β
  transY : β
  persp0 : β
  persp1 : β
  persp2 : β
deriving DecidableEq

namespace SkMatrix

/-- Slot index `SkMatrix::kMScaleX`. -/
def kMScaleX : Nat := 0
/-- Slot index `SkMatrix::kMSkewX`. -/
def kMSkewX : Nat := 1
/-- Slot index `SkMatrix::kMTransX`. -/
def kMTransX : Nat := 2
/-- Slot index `SkMatrix::kMSkewY`. -/
def kMSkewY : Nat := 3
/-- Slot index `SkMatrix::kMScaleY`. -/
def kMScaleY : Nat := 4
/-- Slot index `SkMatrix::kMTransY`. -/
def kMTransY : Nat := 5
/-- Slot index `SkMatrix::kMPersp0`. -/
def kMPersp0 : Nat := 6
/-- Slot index `SkMatrix::kMPersp1`. -/
def kMPersp1 : Nat := 7
/-- Slot index `SkMatrix::kMPersp2`. -/
def kMPersp2 : Nat := 8

/-- Modelled from the spec: `SkMatrix::set(index, value)` stores `value` into
the slot `index` ("set slot K to value V"). -/
def set {β : Type} (m : SkMatrix β) (index : Nat) (value : β) : SkMatrix β :=
  match index with
  | 0 => { m with scaleX := value }
  | 1 => { m with skewX := value }
  | 2 => { m with transX := value }
  | 3 => { m with skewY := value }
  | 4 => { m with scaleY := value }
  | 5 => { m with transY := value }
  | 6 => { m with persp0 := value }
  | 7 => { m with persp1 := value }
  | 8 => { m with persp2 := value }
  | _ => m

/-- The nine scalars of an `SkMatrix` in slot order. -/
def flat (m : SkMatrix α) : Nat → α
  | 0 => m.scaleX
  | 1 => m.skewX
  | 2 => m.transX
  | 3 => m.skewY
  | 4 => m.scaleY
  | 5 => m.transY
  | 6 => m.persp0
  | 7 => m.persp1
  | 8 => m.persp2
  | _ => 0

/-- The scalars read through `((const SkScalar*)&matrix) + off`. -/
def ptr (m : SkMatrix α) (off : Nat) : Nat → α :=
  fun k => m.flat (off + k)

end SkMatrix

/-! ## SkCamera3D -/

/-- `SkCamera3D`: the four public points and the two `mutable` cache members. -/
structure SkCamera3D (α : Type) where
  fLocation : SkPoint3D α
  fAxis : SkPoint3D α
  fZenith : SkPoint3D α
  fObserver : SkPoint3D α
  fOrientation : SkMatrix α
  fNeedToUpdate : Bool
deriving DecidableEq

/-- The three scalars at `p[0], p[1], p[2]` seen as an `SkUnit3D`
(`*(const SkUnit3D*)p`). -/
def SkUnit3D.ofPtr (p : Nat → α) : SkUnit3D α :=
  { fX := p 0, fY := p 1, fZ := p 2 }

namespace SkCamera3D

/-- `SkCamera3D::reset`; `fOrientation` is not touched. -/
def reset (c : SkCamera3D α) : SkCamera3D α :=
  let fLocation : SkPoint3D α := { fX := 0, fY := 0, fZ := -576 }
  { c with
    fLocation := fLocation,
    fAxis := { fX := 0, fY := 0, fZ := 1 },
    fZenith := { fX := 0, fY := -1, fZ := 0 },
    fObserver := { fX := 0, fY := 0, fZ := fLocation.fZ },
    fNeedToUpdate := true }

/-- The constructor `SkCamera3D::SkCamera3D`: `reset` applied to the object,
whose members hold the indeterminate contents `uninit` before the call. -/
def new (uninit : SkCamera3D α) : SkCamera3D α :=
  reset uninit

/-- `SkCamera3D::update`. -/
def update (c : SkCamera3D α) : SkCamera3D α :=
  { c with fNeedToUpdate := true }

/-- `SkCamera3D::doUpdate`, the camera with `fOrientation` rewritten.  `axis0`
is the indeterminate initial content of the local `axis`, which `normalize`
leaves in place when `fAxis` has zero magnitude; the local `zenith` is assigned
before it is normalised in place. -/
def doUpdate (L : ScalarLib α) (axis0 : SkUnit3D α) (c : SkCamera3D α) : SkCamera3D α :=
  let axis := (c.fAxis.normalize L axis0).2
  let dot := SkUnit3D.Dot c.fZenith axis
  let zenith1 : SkUnit3D α :=
    { fX := c.fZenith.fX - dot * axis.fX,
      fY := c.fZenith.fY - dot * axis.fY,
      fZ := c.fZenith.fZ - dot * axis.fZ }
  let zenith := (zenith1.normalize L zenith1).2
  let cross := SkUnit3D.Cross axis zenith
  let x := c.fObserver.fX
  let y := c.fObserver.fY
  let z := c.fObserver.fZ
  let orien := c.fOrientation
  let orien := orien.set SkMatrix.kMScaleX (x * axis.fX - z * cross.fX)
  let orien := orien.set SkMatrix.kMSkewX (x * axis.fY - z * cross.fY)
  let orien := orien.set SkMatrix.kMTransX (x * axis.fZ - z * cross.fZ)
  let orien := orien.set SkMatrix.kMSkewY (y * axis.fX - z * zenith.fX)
  let orien := orien.set SkMatrix.kMScaleY (y * axis.fY - z * zenith.fY)
  let orien := orien.set SkMatrix.kMTransY (y * axis.fZ - z * zenith.fZ)
  let orien := orien.set SkMatrix.kMPersp0 axis.fX
  let orien := orien.set SkMatrix.kMPersp1 axis.fY
  let orien := orien.set SkMatrix.kMPersp2 axis.fZ
  { c with fOrientation := orien }

/-- The opening block of `patchToMatrix`:
`if (fNeedToUpdate) { this->doUpdate(); fNeedToUpdate = false; }`. -/
def refresh (L : ScalarLib α) (axis0 : SkUnit3D α) (c : SkCamera3D α) : SkCamera3D α :=
  if c.fNeedToUpdate then { doUpdate L axis0 c with fNeedToUpdate := false } else c

/-- The perspective denominator of `patchToMatrix`: the local `dot`, computed
from the camera whose orientation is up to date. -/
def denom (c : SkCamera3D α) (quilt : SkPatch3D α) : α :=
  let diff : SkPoint3D α :=
    { fX := quilt.fOrigin.fX - c.fLocation.fX,
      fY := quilt.fOrigin.fY - c.fLocation.fY,
      fZ := quilt.fOrigin.fZ - c.fLocation.fZ }
  SkUnit3D.Dot diff (SkUnit3D.ofPtr (c.fOrientation.ptr 6))

/-- `SkCamera3D::patchToMatrix(quilt, matrix)`: the camera after the call (its
cache members are `mutable`) and the contents of `*matrix` after the call.
A slot of the written matrix is `none` when the stored quotient has a zero
denominator.  `matrix` is the content of `*matrix` before the call. -/
def patchToMatrix (L : ScalarLib α) (axis0 : SkUnit3D α) (c : SkCamera3D α)
    (quilt : SkPatch3D α) (matrix : SkMatrix (Option α)) :
    SkCamera3D α × SkMatrix (Option α) :=
  let c := refresh L axis0 c
  let mapPtr := c.fOrientation.ptr
  let diff : SkPoint3D α :=
    { fX := quilt.fOrigin.fX - c.fLocation.fX,
      fY := quilt.fOrigin.fY - c.fLocation.fY,
      fZ := quilt.fOrigin.fZ - c.fLocation.fZ }
  let dot := SkUnit3D.Dot diff (SkUnit3D.ofPtr (c.fOrientation.ptr 6))
  let patchPtr := quilt.ptr
  let matrix := matrix.set SkMatrix.kMScaleX (SkScalarDotDiv 3 patchPtr 1 (mapPtr 0) 1 dot)
  let matrix := matrix.set SkMatrix.kMSkewY (SkScalarDotDiv 3 patchPtr 1 (mapPtr 3) 1 dot)
  let matrix := matrix.set SkMatrix.kMPersp0 (SkScalarDotDiv 3 patchPtr 1 (mapPtr 6) 1 dot)
  let patchPtr := fun k => patchPtr (k + 3)
  let matrix := matrix.set SkMatrix.kMSkewX (SkScalarDotDiv 3 patchPtr 1 (mapPtr 0) 1 dot)
  let matrix := matrix.set SkMatrix.kMScaleY (SkScalarDotDiv 3 patchPtr 1 (mapPtr 3) 1 dot)
  let matrix := matrix.set SkMatrix.kMPersp1 (SkScalarDotDiv 3 patchPtr 1 (mapPtr 6) 1 dot)
  let patchPtr := diff.ptr
  let matrix := matrix.set SkMatrix.kMTransX (SkScalarDotDiv 3 patchPtr 1 (mapPtr 0) 1 dot)
  let matrix := matrix.set SkMatrix.kMTransY (SkScalarDotDiv 3 patchPtr 1 (mapPtr 3) 1 dot)
  let matrix := matrix.set SkMatrix.kMPersp2 (some 1)
  (c, matrix)

end SkCamera3D

/-! ## Sk3DView -/

/-- Where an `Sk3DView::Rec` lives: the member `fInitialRec` of the view, or a
record obtained from `SkNEW(Rec)`.  The source compares record addresses only
with `&fInitialRec`. -/
inductive RecAddr where
  | initialRec
  | heap
deriving DecidableEq

/-- One `Sk3DView::Rec`: its address kind and its `fMatrix`; its `fNext` is the
rest of the list it heads. -/
structure Rec (α : Type) where
  addr : RecAddr
  fMatrix : SkMatrix3D α
deriving DecidableEq

/-- `Sk3DView`: `fRec` is the chain of records starting at the record the
pointer `fRec` addresses and following `fNext`, down to `fInitialRec`;
`fCamera` is the camera member. -/
structure Sk3DView (α : Type) where
  fRec : List (Rec α)
  fCamera : SkCamera3D α
deriving DecidableEq

namespace Sk3DView

/-- The constructor `Sk3DView::Sk3DView`: `fInitialRec.fMatrix.reset()` and
`fRec = &fInitialRec`; the camera member is default-constructed. -/
def new (uninitCamera : SkCamera3D α) : Sk3DView α :=
  { fRec := [{ addr := RecAddr.initialRec, fMatrix := SkMatrix3D.reset }],
    fCamera := SkCamera3D.new uninitCamera }

/-- `Sk3DView::save`: a new heap record holding a copy of the current matrix
becomes the head of the chain.  `none` when `fRec` addresses no record. -/
def save (v : Sk3DView α) : Option (Sk3DView α) :=
  match v.fRec with
  | [] => none
  | r :: next => some { v with fRec := { addr := RecAddr.heap, fMatrix := r.fMatrix } :: r :: next }

/-- `Sk3DView::restore`: `SkASSERT(fRec != &fInitialRec)`, then the head record
is deleted and `fRec = fRec->fNext`.  `none` when the assertion is violated (or
`fRec` addresses no record). -/
def restore (v : Sk3DView α) : Option (Sk3DView α) :=
  match v.fRec with
  | [] => none
  | r :: next => if r.addr ≠ RecAddr.initialRec then some { v with fRec := next } else none

/-- Applies `f` to `fRec->fMatrix`. -/
def onMatrix (v : Sk3DView α) (f : SkMatrix3D α → SkMatrix3D α) : Option (Sk3DView α) :=
  match v.fRec with
  | [] => none
  | r :: next => some { v with fRec := { r with fMatrix := f r.fMatrix } :: next }

/-- `Sk3DView::translate`. -/
def translate (v : Sk3DView α) (x y z : α) : Option (Sk3DView α) :=
  v.onMatrix (fun m => m.preTranslate x y z)

/-- `Sk3DView::rotateX`; `tmp` is the indeterminate initial content of the
local matrix of `preRotateX`. -/
def rotateX (L : ScalarLib α) (tmp : SkMatrix3D α) (v : Sk3DView α) (deg : α) :
    Option (Sk3DView α) :=
  v.onMatrix (fun m => SkMatrix3D.preRotateX L tmp m deg)

/-- `Sk3DView::rotateY`. -/
def rotateY (L : ScalarLib α) (tmp : SkMatrix3D α) (v : Sk3DView α) (deg : α) :
    Option (Sk3DView α) :=
  v.onMatrix (fun m => SkMatrix3D.preRotateY L tmp m deg)

/-- `Sk3DView::rotateZ`. -/
def rotateZ (L : ScalarLib α) (tmp : SkMatrix3D α) (v : Sk3DView α) (deg : α) :
    Option (Sk3DView α) :=
  v.onMatrix (fun m => SkMatrix3D.preRotateZ L tmp m deg)

/-- `Sk3DView::dotWithNormal`: a default patch carried through `fRec->fMatrix`. -/
def dotWithNormal (v : Sk3DView α) (x y z : α) : Option α :=
  match v.fRec with
  | [] => none
  | r :: _ => some ((SkPatch3D.reset.transform r.fMatrix).dotWith x y z)

/-- `Sk3DView::getMatrix(matrix)`: the view after the call (the camera cache may
be rewritten) and the contents of `*matrix` after the call.  The argument
`matrix` is `none` for a `NULL` pointer, else the prior content of
`*matrix`. -/
def getMatrix (L : ScalarLib α) (axis0 : SkUnit3D α) (v : Sk3DView α)
    (matrix : Option (SkMatrix (Option α))) :
    Option (Sk3DView α × Option (SkMatrix (Option α))) :=
  match matrix with
  | none => some (v, none)
  | some m =>
    match v.fRec with
    | [] => none
    | r :: _ =>
      let patch := SkPatch3D.reset.transform r.fMatrix
      let res := v.fCamera.patchToMatrix L axis0 patch m
      some ({ v with fCamera := res.1 }, some res.2)

/-- The current transform `fRec->fMatrix`. -/
def current (v : Sk3DView α) : Option (SkMatrix3D α) :=
  v.fRec.head?.map Rec.fMatrix

end Sk3DView

/-- One call on an `Sk3DView`. -/
inductive ViewOp (α : Type) where
  | save
  | restore
  | translate (x y z : α)
  | rotateX (deg : α)
  | rotateY (deg : α)
  | rotateZ (deg : α)
  | dotWithNormal (x y z : α)
  | getMatrix (matrix : Option (SkMatrix (Option α)))

/-- The view after one call; `none` when the call fails. -/
def ViewOp.apply (L : ScalarLib α) (tmp : SkMatrix3D α) (axis0 : SkUnit3D α)
    (v : Sk3DView α) : ViewOp α → Option (Sk3DView α)
  | ViewOp.save => v.save
  | ViewOp.restore => v.restore
  | ViewOp.translate x y z => v.translate x y z
  | ViewOp.rotateX deg => v.rotateX L tmp deg
  | ViewOp.rotateY deg => v.rotateY L tmp deg
  | ViewOp.rotateZ deg => v.rotateZ L tmp deg
  | ViewOp.dotWithNormal x y z => (v.dotWithNormal x y z).map (fun _ => v)
  | ViewOp.getMatrix matrix => (v.getMatrix L axis0 matrix).map Prod.fst

/-- The view after a sequence of calls, `none` as soon as one fails. -/
def runOps (L : ScalarLib α) (tmp : SkMatrix3D α) (axis0 : SkUnit3D α) :
    Sk3DView α → List (ViewOp α) → Option (Sk3DView α)
  | v, [] => some v
  | v, op :: ops =>
    match op.apply L tmp axis0 v with
    | none => none
    | some v1 => runOps L tmp axis0 v1 ops

/-! ## Definitions used to state the properties -/

/-- The linear block of a transform: the entries `fMat[i][j]`, `i, j < 3`. -/
def linearBlock (m : SkMatrix3D α) : Matrix (Fin 3) (Fin 3) α :=
  !![m.m00, m.m01, m.m02; m.m10, m.m11, m.m12; m.m20, m.m21, m.m22]

/-- The translation column of a transform: the entries `fMat[i][3]`. -/
def translationColumn (m : SkMatrix3D α) : Fin 3 → α :=
  ![m.m03, m.m13, m.m23]

/-- The transform with identity linear block and translation column
`(x, y, z)`, as the specification describes a translation. -/
def translationMatrix (x y z : α) : SkMatrix3D α :=
  { m00 := 1, m01 := 0, m02 := 0, m03 := x,
    m10 := 0, m11 := 1, m12 := 0, m13 := y,
    m20 := 0, m21 := 0, m22 := 1, m23 := z }

/-- The patch normal of the specification, the vector cross product `u × v`. -/
def patchNormal (p : SkPatch3D α) : SkVector3D α :=
  { fX := p.fU.fY * p.fV.fZ - p.fU.fZ * p.fV.fY,
    fY := p.fU.fZ * p.fV.fX - p.fU.fX * p.fV.fZ,
    fZ := p.fU.fX * p.fV.fY - p.fU.fY * p.fV.fX }

/-- The value the specification gives for `dotWith`: the dot product of the
normal `u × v` with the direction `(dx, dy, dz)`. -/
def normalDot (p : SkPatch3D α) (dx dy dz : α) : α :=
  (patchNormal p).fX * dx + (patchNormal p).fY * dy + (patchNormal p).fZ * dz

/-- A quotient, undefined for the zero denominator. -/
def quotient (x d : α) : Option α :=
  if d = 0 then none else some (x / d)

/-- The written 2-D identity: unit scale and persp-2, every other slot zero. -/
def identityMatrix : SkMatrix (Option α) :=
  { scaleX := some 1, skewX := some 0, transX := some 0,
    skewY := some 0, scaleY := some 1, transY := some 0,
    persp0 := some 0, persp1 := some 0, persp2 := some 1 }

/-- Every slot of a written matrix holds a defined scalar. -/
def allDefined (m : SkMatrix (Option α)) : Bool :=
  m.scaleX.isSome && m.skewX.isSome && m.transX.isSome && m.skewY.isSome && m.scaleY.isSome
    && m.transY.isSome && m.persp0.isSome && m.persp1.isSome && m.persp2.isSome

/-- A record chain is a sentinel chain when its last record is `fInitialRec`
and every record above it is a heap record. -/
def sentinelChain : List (Rec α) → Bool
  | [] => false
  | [r] => decide (r.addr = RecAddr.initialRec)
  | r :: r1 :: next => decide (r.addr = RecAddr.heap) && sentinelChain (r1 :: next)

/-- Number of `save()` calls in a sequence. -/
def countSave : List (ViewOp α) → Nat
  | [] => 0
  | ViewOp.save :: ops => countSave ops + 1
  | _ :: ops => countSave ops

/-- Number of `restore()` calls in a sequence. -/
def countRestore : List (ViewOp α) → Nat
  | [] => 0
  | ViewOp.restore :: ops => countRestore ops + 1
  | _ :: ops => countRestore ops

/-- A sequence of `save`, `restore`, `translate` and `rotate` calls is well
nested from depth `d`: no `restore` without an outstanding `save`, and none
outstanding at the end.  With `strict`, a `translate` or `rotate` call is
accepted only while a `save` of the sequence is outstanding. -/
def nested (strict : Bool) : Nat → List (ViewOp α) → Bool
  | d, [] => decide (d = 0)
  | d, ViewOp.save :: ops => nested strict (d + 1) ops
  | 0, ViewOp.restore :: _ => false
  | d + 1, ViewOp.restore :: ops => nested strict d ops
  | d, ViewOp.translate _ _ _ :: ops => (!strict || decide (1 ≤ d)) && nested strict d ops
  | d, ViewOp.rotateX _ :: ops => (!strict || decide (1 ≤ d)) && nested strict d ops
  | d, ViewOp.rotateY _ :: ops => (!strict || decide (1 ≤ d)) && nested strict d ops
  | d, ViewOp.rotateZ _ :: ops => (!strict || decide (1 ≤ d)) && nested strict d ops
  | _, ViewOp.dotWithNormal _ _ _ :: _ => false
  | _, ViewOp.getMatrix _ :: _ => false

/-- The sequence begins with a `save()` call. -/
def startsWithSave : List (ViewOp α) → Bool
  | ViewOp.save :: _ => true
  | _ => false

/-- The sequences of the stack-balance property: `n ≥ 1` calls of `save` and
`n` of `restore`, well nested, the first call a `save`, with `translate` and
`rotate` calls anywhere after it. -/
def stackSequence (n : Nat) (ops : List (ViewOp α)) : Bool :=
  decide (1 ≤ n) && startsWithSave ops && nested false 0 ops
    && decide (countSave ops = n) && decide (countRestore ops = n)

/-! ## Concrete inputs over the rationals -/

/-- A scalar library over `ℚ` on which the embedding can be evaluated: the
square root is exact on quotients of perfect squares, and the sine and cosine
pair is the rational point of the unit circle with half-angle tangent `t`,
the conversion from degrees standing for `deg ↦ deg / 2`. -/
def ratLib : ScalarLib ℚ :=
  { sk_float_sqrt := fun q => (Nat.sqrt q.num.toNat : ℚ) / (Nat.sqrt q.den : ℚ),
    SkDegreesToRadians := fun deg => deg / 2,
    SkScalarSinCos := fun t => (2 * t / (1 + t * t), (1 - t * t) / (1 + t * t)) }

/-- The point `(0, 0, 0)`. -/
def zeroPoint : SkPoint3D ℚ :=
  { fX := 0, fY := 0, fZ := 0 }

/-- A camera object before its constructor has run, all members zero. -/
def zeroCamera : SkCamera3D ℚ :=
  { fLocation := zeroPoint, fAxis := zeroPoint, fZenith := zeroPoint, fObserver := zeroPoint,
    fOrientation := ⟨0, 0, 0, 0, 0, 0, 0, 0, 0⟩, fNeedToUpdate := false }

/-- A destination matrix before it is written. -/
def blankMatrix : SkMatrix (Option ℚ) :=
  ⟨none, none, none, none, none, none, none, none, none⟩

/-- A patch with basis `u = (1, 2, 3)`, `v = (4, 5, 6)`. -/
def skewPatch : SkPatch3D ℚ :=
  { fU := { fX := 1, fY := 2, fZ := 3 },
    fV := { fX := 4, fY := 5, fZ := 6 },
    fOrigin := zeroPoint }

/-- The default patch moved onto the focal plane of the default camera: its
origin is the camera location `(0, 0, -576)`. -/
def focalPatch : SkPatch3D ℚ :=
  { fU := { fX := 1, fY := 0, fZ := 0 },
    fV := { fX := 0, fY := -1, fZ := 0 },
    fOrigin := { fX := 0, fY := 0, fZ := -576 } }

/-- A view one `save()` deep whose top record has been translated. -/
def savedView : Sk3DView ℚ :=
  { fRec := [{ addr := RecAddr.heap, fMatrix := translationMatrix 1 2 3 },
      { addr := RecAddr.initialRec, fMatrix := SkMatrix3D.reset }],
    fCamera := SkCamera3D.new zeroCamera }

/-- A balanced call sequence that mutates only inside its `save` levels. -/
def insideOps : List (ViewOp ℚ) :=
  [ViewOp.save, ViewOp.translate 1 2 3, ViewOp.rotateX 1, ViewOp.save, ViewOp.restore,
    ViewOp.restore]

/-- A call sequence that ends one `save()` deep, in the state `savedView`. -/
def deepOps : List (ViewOp ℚ) :=
  [ViewOp.save, ViewOp.translate 1 2 3, ViewOp.save, ViewOp.getMatrix none, ViewOp.restore]

/-- A well nested call sequence with a `translate` between two `save` levels. -/
def betweenOps : List (ViewOp ℚ) :=
  [ViewOp.save, ViewOp.restore, ViewOp.translate 1 0 0, ViewOp.save, ViewOp.restore]

/-! ## Further definitions used to state the properties -/

/-- The vector cross product `a × b` of the specification. -/
def crossProduct (a b : SkVector3D α) : SkVector3D α :=
  { fX := a.fY * b.fZ - a.fZ * b.fY,
    fY := a.fZ * b.fX - a.fX * b.fZ,
    fZ := a.fX * b.fY - a.fY * b.fX }

/-- The vector `k · v`. -/
def scaleVector (k : α) (v : SkVector3D α) : SkVector3D α :=
  { fX := k * v.fX, fY := k * v.fY, fZ := k * v.fZ }

/-- The vector `a - b`. -/
def subVector (a b : SkVector3D α) : SkVector3D α :=
  { fX := a.fX - b.fX, fY := a.fY - b.fY, fZ := a.fZ - b.fZ }

/-- The standard right-handed rotation about the x axis with sine `s` and
cosine `c`, rows listed top to bottom. -/
def standardRx (s c : α) : Matrix (Fin 3) (Fin 3) α :=
  !![1, 0, 0; 0, c, -s; 0, s, c]

/-- The standard right-handed rotation about the y axis. -/
def standardRy (s c : α) : Matrix (Fin 3) (Fin 3) α :=
  !![c, 0, s; 0, 1, 0; -s, 0, c]

/-- The standard right-handed rotation about the z axis. -/
def standardRz (s c : α) : Matrix (Fin 3) (Fin 3) α :=
  !![c, -s, 0; s, c, 0; 0, 0, 1]

/-- Row `i` of the orientation descriptor: the three scalars at
`((const SkScalar*)&fOrientation) + 3 * i`. -/
def orientationRow (c : SkCamera3D α) (i : Nat) : SkUnit3D α :=
  SkUnit3D.ofPtr (c.fOrientation.ptr (3 * i))

/-- The local `diff` of `patchToMatrix`: patch origin minus camera location. -/
def originDiff (c : SkCamera3D α) (quilt : SkPatch3D α) : SkPoint3D α :=
  subVector quilt.fOrigin c.fLocation

/-- The local `axis` of `doUpdate` after `fAxis.normalize(&axis)`: the forward
vector. -/
def forwardVector (L : ScalarLib α) (axis0 : SkUnit3D α) (c : SkCamera3D α) : SkUnit3D α :=
  (c.fAxis.normalize L axis0).2

/-- The local `zenith` of `doUpdate` before it is normalised: the zenith made
orthogonal to the forward vector. -/
def orthogonalZenith (L : ScalarLib α) (axis0 : SkUnit3D α) (c : SkCamera3D α) : SkUnit3D α :=
  subVector c.fZenith
    (scaleVector (SkUnit3D.Dot c.fZenith (forwardVector L axis0 c)) (forwardVector L axis0 c))

/-- The local `zenith` of `doUpdate` after it is normalised in place: the up
vector. -/
def upVector (L : ScalarLib α) (axis0 : SkUnit3D α) (c : SkCamera3D α) : SkUnit3D α :=
  ((orthogonalZenith L axis0 c).normalize L (orthogonalZenith L axis0 c)).2

/-- The local `cross` of `doUpdate`: what `SkUnit3D::Cross` stores for the
forward and up vectors. -/
def rightVector (L : ScalarLib α) (axis0 : SkUnit3D α) (c : SkCamera3D α) : SkUnit3D α :=
  SkUnit3D.Cross (forwardVector L axis0 c) (upVector L axis0 c)

/-- Two vectors are parallel when the second is a scalar multiple of the
first. -/
def parallelTo (a z : SkVector3D α) : Prop :=
  ∃ k : α, z = scaleVector k a

/-- The cache of a camera is coherent: the dirty flag is set, or the stored
descriptor is the one `doUpdate` derives from the current members. -/
def cacheCoherent (L : ScalarLib α) (axis0 : SkUnit3D α) (c : SkCamera3D α) : Prop :=
  c.fNeedToUpdate = true ∨ c.fOrientation = (c.doUpdate L axis0).fOrientation

/-- One in-place call on an `SkMatrix3D`. -/
inductive MatrixOp (α : Type) where
  | preRotateX (deg : α)
  | preRotateY (deg : α)
  | preRotateZ (deg : α)
  | preTranslate (x y z : α)

/-- The matrix after one call. -/
def MatrixOp.apply (L : ScalarLib α) (tmp : SkMatrix3D α) (m : SkMatrix3D α) :
    MatrixOp α → SkMatrix3D α
  | MatrixOp.preRotateX deg => SkMatrix3D.preRotateX L tmp m deg
  | MatrixOp.preRotateY deg => SkMatrix3D.preRotateY L tmp m deg
  | MatrixOp.preRotateZ deg => SkMatrix3D.preRotateZ L tmp m deg
  | MatrixOp.preTranslate x y z => m.preTranslate x y z

/-- The matrix after a sequence of calls. -/
def runMatrixOps (L : ScalarLib α) (tmp : SkMatrix3D α) :
    SkMatrix3D α → List (MatrixOp α) → SkMatrix3D α
  | m, [] => m
  | m, op :: ops => runMatrixOps L tmp (op.apply L tmp m) ops

/-- The written matrix applied to the homogeneous plane point `(s, t, 1)`:
`x' = scale-x·s + skew-x·t + translate-x`,
`y' = skew-y·s + scale-y·t + translate-y`,
`w = persp-0·s + persp-1·t + persp-2`; undefined when a slot is. -/
def mapHomogeneous (m : SkMatrix (Option α)) (s t : α) : Option (α × α × α) :=
  match m.scaleX, m.skewX, m.transX, m.skewY, m.scaleY, m.transY, m.persp0, m.persp1,
    m.persp2 with
  | some sx, some kx, some tx, some ky, some sy, some ty, some p0, some p1, some p2 =>
      some (sx * s + kx * t + tx, ky * s + sy * t + ty, p0 * s + p1 * t + p2)
  | _, _, _, _, _, _, _, _, _ => none

/-! ## Further concrete inputs -/

/-- The default camera turned to look along `+x` with zenith `+y`, as after
`fAxis.set(1, 0, 0); fZenith.set(0, 1, 0); update()`. -/
def sideCamera : SkCamera3D ℚ :=
  { fLocation := { fX := 0, fY := 0, fZ := -576 },
    fAxis := { fX := 1, fY := 0, fZ := 0 },
    fZenith := { fX := 0, fY := 1, fZ := 0 },
    fObserver := { fX := 0, fY := 0, fZ := -576 },
    fOrientation := ⟨0, 0, 0, 0, 0, 0, 0, 0, 0⟩,
    fNeedToUpdate := true }

/-- A camera with axis `(0, 0, 2)` and zenith `(0, 3, 4)`, neither of unit
length nor orthogonal to each other. -/
def tiltCamera : SkCamera3D ℚ :=
  { fLocation := { fX := 0, fY := 0, fZ := -10 },
    fAxis := { fX := 0, fY := 0, fZ := 2 },
    fZenith := { fX := 0, fY := 3, fZ := 4 },
    fObserver := { fX := 1, fY := 2, fZ := 3 },
    fOrientation := ⟨0, 0, 0, 0, 0, 0, 0, 0, 0⟩,
    fNeedToUpdate := true }

/-- A camera whose zenith `(0, 0, 6)` is three times its axis `(0, 0, 2)`. -/
def parallelCamera : SkCamera3D ℚ :=
  { fLocation := { fX := 0, fY := 0, fZ := -10 },
    fAxis := { fX := 0, fY := 0, fZ := 2 },
    fZenith := { fX := 0, fY := 0, fZ := 6 },
    fObserver := { fX := 1, fY := 2, fZ := 3 },
    fOrientation := ⟨0, 0, 0, 0, 0, 0, 0, 0, 0⟩,
    fNeedToUpdate := true }

/-- A sequence of rotations and a translation. -/
def turnOps : List (MatrixOp ℚ) :=
  [MatrixOp.preRotateX 1, MatrixOp.preTranslate 1 2 3, MatrixOp.preRotateY 2,
    MatrixOp.preRotateZ (-1)]

/-! ## Binary32 scalars

The float build stores every scalar as an IEEE-754 binary32 value and rounds
each `+`, `-`, `*`, `/` and square root to the nearest such value, ties to
even.  The definitions below follow the camera derivation under that
arithmetic, to decide where rounding changes the branch the code takes. -/

/-- The number of binary digits of `n`; the first argument bounds the number of
halvings and `bitLength n n` is exact for every `n`. -/
def bitLength : Nat → Nat → Nat
  | 0, _ => 0
  | fuel + 1, n => if n = 0 then 0 else bitLength fuel (n / 2) + 1

/-- A binary32 scalar: the finite value `mant * 2 ^ exp`, where `mant = 0`
(with `exp = 0`) or `2 ^ 23 ≤ |mant| < 2 ^ 24` and `-149 ≤ exp ≤ 104`, the
normal range; or `other`, which stands for an infinity, a NaN or a non-zero
result below the normal range, none of which the model follows further. -/
inductive Binary32 where
  | finite (mant : Int) (exp : Int)
  | other
deriving DecidableEq

namespace Binary32

/-- The binary32 value nearest to the exact value `m * 2 ^ e`, ties to even;
`other` when the rounded value leaves the normal range. -/
def round (m : Int) (e : Int) : Binary32 :=
  let n := m.natAbs
  if n = 0 then finite 0 0 else
    let bits := bitLength n n
    let sh := bits - 24
    let q := n / 2 ^ sh
    let r := n % 2 ^ sh
    let half := 2 ^ (sh - 1)
    let q1 := if sh ≠ 0 ∧ (half < r ∨ (r = half ∧ q % 2 = 1)) then q + 1 else q
    let up := 24 - bits
    let q2 := if q1 = 2 ^ 24 then 2 ^ 23 else q1 * 2 ^ up
    let e2 : Int := if q1 = 2 ^ 24 then e + sh + 1 else e + sh - up
    if e2 < -149 ∨ 104 < e2 then other
    else finite (if m < 0 then -(q2 : Int) else (q2 : Int)) e2

/-- The binary32 value of an integer constant. -/
def ofInt (n : Int) : Binary32 :=
  round n 0

/-- Rounded product `a * b`. -/
def mul : Binary32 → Binary32 → Binary32
  | finite m1 e1, finite m2 e2 => round (m1 * m2) (e1 + e2)
  | _, _ => other

/-- Rounded sum `a + b`. -/
def add : Binary32 → Binary32 → Binary32
  | finite m1 e1, finite m2 e2 =>
    let e := min e1 e2
    round (m1 * 2 ^ (e1 - e).toNat + m2 * 2 ^ (e2 - e).toNat) e
  | _, _ => other

/-- The value `-a`, which is exact. -/
def neg : Binary32 → Binary32
  | finite m e => finite (-m) e
  | other => other

/-- Rounded difference `a - b`. -/
def sub (a b : Binary32) : Binary32 :=
  add a (neg b)

/-- Rounded quotient `a / b`: the quotient is computed to 64 further binary
digits with a sticky last digit, then rounded; `other` for a zero divisor. -/
def div : Binary32 → Binary32 → Binary32
  | finite m1 e1, finite m2 e2 =>
    if m2 = 0 then other else
      let n := m1.natAbs * 2 ^ 64
      let q := n / m2.natAbs
      let sticky := if n % m2.natAbs = 0 then 0 else 1
      let mag : Int := ((2 * q + sticky : Nat) : Int)
      round (if (m1 < 0) = (m2 < 0) then mag else -mag) (e1 - e2 - 65)
  | _, _ => other

/-- The loop of the integer square root: the digits of the root are fixed
from the highest down. -/
def isqrtLoop (n : Nat) : Nat → Nat → Nat
  | 0, res => res
  | k + 1, res =>
    isqrtLoop n k (if (res + 2 ^ k) * (res + 2 ^ k) ≤ n then res + 2 ^ k else res)

/-- The integer square root: the largest `s` with `s * s ≤ n`. -/
def isqrt (n : Nat) : Nat :=
  isqrtLoop n (bitLength n n) 0

/-- Rounded square root (`sk_float_sqrt` in the float build): the root is
computed to at least 32 further binary digits with a sticky last digit, then
rounded; `other` for a negative argument. -/
def sqrt : Binary32 → Binary32
  | finite m e =>
    if m < 0 then other else
      let odd := e % 2
      let n := m.natAbs * 2 ^ (64 + odd.toNat)
      let s := isqrt n
      let sticky := if s * s = n then 0 else 1
      round ((2 * s + sticky : Nat) : Int) ((e - 64 - odd) / 2 - 1)
  | other => other

end Binary32

/-- `SkPoint3D::normalize(unit)` in binary32 arithmetic: `if (mag)` is the test
that `mag` is not zero. -/
def normalize32 (p : SkPoint3D Binary32) (unit : SkUnit3D Binary32) :
    Binary32 × SkUnit3D Binary32 :=
  let mag := Binary32.sqrt
    (Binary32.add (Binary32.add (Binary32.mul p.fX p.fX) (Binary32.mul p.fY p.fY))
      (Binary32.mul p.fZ p.fZ))
  if mag ≠ Binary32.finite 0 0 then
    let scale := Binary32.div (Binary32.ofInt 1) mag
    (mag, { fX := Binary32.mul p.fX scale, fY := Binary32.mul p.fY scale,
            fZ := Binary32.mul p.fZ scale })
  else
    (mag, unit)

/-- `SkUnit3D::Dot(a, b)` in binary32 arithmetic. -/
def Dot32 (a b : SkUnit3D Binary32) : Binary32 :=
  Binary32.add (Binary32.add (Binary32.mul a.fX b.fX) (Binary32.mul a.fY b.fY))
    (Binary32.mul a.fZ b.fZ)

/-- `SkUnit3D::Cross(a, b, cross)` in binary32 arithmetic, the three products
those of the source. -/
def Cross32 (a b : SkUnit3D Binary32) : SkUnit3D Binary32 :=
  let x := Binary32.sub (Binary32.mul a.fY b.fZ) (Binary32.mul a.fZ b.fY)
  let y := Binary32.sub (Binary32.mul a.fZ b.fX) (Binary32.mul a.fX b.fY)
  let z := Binary32.sub (Binary32.mul a.fX b.fY) (Binary32.mul a.fY b.fX)
  { fX := x, fY := y, fZ := z }

/-- The local `axis` of `doUpdate` after `fAxis.normalize(&axis)`, in binary32
arithmetic. -/
def forwardVector32 (axis0 : SkUnit3D Binary32) (c : SkCamera3D Binary32) : SkUnit3D Binary32 :=
  (normalize32 c.fAxis axis0).2

/-- The local `zenith` of `doUpdate` before it is normalised, in binary32
arithmetic. -/
def orthogonalZenith32 (axis0 : SkUnit3D Binary32) (c : SkCamera3D Binary32) :
    SkUnit3D Binary32 :=
  let axis := forwardVector32 axis0 c
  let dot := Dot32 c.fZenith axis
  { fX := Binary32.sub c.fZenith.fX (Binary32.mul dot axis.fX),
    fY := Binary32.sub c.fZenith.fY (Binary32.mul dot axis.fY),
    fZ := Binary32.sub c.fZenith.fZ (Binary32.mul dot axis.fZ) }

/-- The local `zenith` of `doUpdate` after it is normalised in place, in
binary32 arithmetic. -/
def upVector32 (axis0 : SkUnit3D Binary32) (c : SkCamera3D Binary32) : SkUnit3D Binary32 :=
  (normalize32 (orthogonalZenith32 axis0 c) (orthogonalZenith32 axis0 c)).2

/-- `SkCamera3D::doUpdate` in binary32 arithmetic, the camera with
`fOrientation` rewritten. -/
def doUpdate32 (axis0 : SkUnit3D Binary32) (c : SkCamera3D Binary32) : SkCamera3D Binary32 :=
  let axis := forwardVector32 axis0 c
  let zenith := upVector32 axis0 c
  let cross := Cross32 axis zenith
  let x := c.fObserver.fX
  let y := c.fObserver.fY
  let z := c.fObserver.fZ
  let orien := c.fOrientation
  let orien := orien.set SkMatrix.kMScaleX
    (Binary32.sub (Binary32.mul x axis.fX) (Binary32.mul z cross.fX))
  let orien := orien.set SkMatrix.kMSkewX
    (Binary32.sub (Binary32.mul x axis.fY) (Binary32.mul z cross.fY))
  let orien := orien.set SkMatrix.kMTransX
    (Binary32.sub (Binary32.mul x axis.fZ) (Binary32.mul z cross.fZ))
  let orien := orien.set SkMatrix.kMSkewY
    (Binary32.sub (Binary32.mul y axis.fX) (Binary32.mul z zenith.fX))
  let orien := orien.set SkMatrix.kMScaleY
    (Binary32.sub (Binary32.mul y axis.fY) (Binary32.mul z zenith.fY))
  let orien := orien.set SkMatrix.kMTransY
    (Binary32.sub (Binary32.mul y axis.fZ) (Binary32.mul z zenith.fZ))
  let orien := orien.set SkMatrix.kMPersp0 axis.fX
  let orien := orien.set SkMatrix.kMPersp1 axis.fY
  let orien := orien.set SkMatrix.kMPersp2 axis.fZ
  { c with fOrientation := orien }

/-- The binary32 zero. -/
def zero32 : Binary32 :=
  Binary32.finite 0 0

/-- A camera whose zenith equals its axis `(2, 3, 6)`, with observer
`(1, 2, 3)`; every member is an exact binary32 value. -/
def parallelCamera32 : SkCamera3D Binary32 :=
  { fLocation := { fX := zero32, fY := zero32, fZ := Binary32.ofInt (-10) },
    fAxis := { fX := Binary32.ofInt 2, fY := Binary32.ofInt 3, fZ := Binary32.ofInt 6 },
    fZenith := { fX := Binary32.ofInt 2, fY := Binary32.ofInt 3, fZ := Binary32.ofInt 6 },
    fObserver := { fX := Binary32.ofInt 1, fY := Binary32.ofInt 2, fZ := Binary32.ofInt 3 },
    fOrientation := ⟨zero32, zero32, zero32, zero32, zero32, zero32, zero32, zero32, zero32⟩,
    fNeedToUpdate := true }

/-! ## Closed forms of the pointer loops -/

theorem SkScalarDot_three (a b : Nat → α) (sa sb : Nat) :
    SkScalarDot 3 a sa b sb = 0 + a 0 * b 0 + a sa * b sb + a (sa + sa) * b (sb + sb) := by
  simp [SkScalarDot, dotLoop]

theorem SkScalarDotDiv_three (a b : Nat → α) (denom : α) :
    SkScalarDotDiv 3 a 1 b 1 denom = quotient (a 0 * b 0 + a 1 * b 1 + a 2 * b 2) denom := by
  simp [SkScalarDotDiv, dotLoop, quotient]

theorem m3_ptr_apply (m : SkMatrix3D α) (i j k : Nat) : m.ptr i j k = m.flat (4 * i + j + k) := rfl
theorem m3_flat_0 (m : SkMatrix3D α) : m.flat 0 = m.m00 := rfl
theorem m3_flat_1 (m : SkMatrix3D α) : m.flat 1 = m.m01 := rfl
theorem m3_flat_2 (m : SkMatrix3D α) : m.flat 2 = m.m02 := rfl
theorem m3_flat_3 (m : SkMatrix3D α) : m.flat 3 = m.m03 := rfl
theorem m3_flat_4 (m : SkMatrix3D α) : m.flat 4 = m.m10 := rfl
theorem m3_flat_5 (m : SkMatrix3D α) : m.flat 5 = m.m11 := rfl
theorem m3_flat_6 (m : SkMatrix3D α) : m.flat 6 = m.m12 := rfl
theorem m3_flat_7 (m : SkMatrix3D α) : m.flat 7 = m.m13 := rfl
theorem m3_flat_8 (m : SkMatrix3D α) : m.flat 8 = m.m20 := rfl
theorem m3_flat_9 (m : SkMatrix3D α) : m.flat 9 = m.m21 := rfl
theorem m3_flat_10 (m : SkMatrix3D α) : m.flat 10 = m.m22 := rfl
theorem m3_flat_11 (m : SkMatrix3D α) : m.flat 11 = m.m23 := rfl
theorem point_ptr_0 (p : SkPoint3D α) : p.ptr 0 = p.fX := rfl
theorem point_ptr_1 (p : SkPoint3D α) : p.ptr 1 = p.fY := rfl
theorem point_ptr_2 (p : SkPoint3D α) : p.ptr 2 = p.fZ := rfl
theorem col_at_0 (x y z : α) : SkMatrix3D.col x y z 0 = x := rfl
theorem col_at_1 (x y z : α) : SkMatrix3D.col x y z 1 = y := rfl
theorem col_at_2 (x y z : α) : SkMatrix3D.col x y z 2 = z := rfl
theorem m2_ptr_apply (m : SkMatrix α) (off k : Nat) : m.ptr off k = m.flat (off + k) := rfl
theorem m2_flat_0 (m : SkMatrix α) : m.flat 0 = m.scaleX := rfl
theorem m2_flat_1 (m : SkMatrix α) : m.flat 1 = m.skewX := rfl
theorem m2_flat_2 (m : SkMatrix α) : m.flat 2 = m.transX := rfl
theorem m2_flat_3 (m : SkMatrix α) : m.flat 3 = m.skewY := rfl
theorem m2_flat_4 (m : SkMatrix α) : m.flat 4 = m.scaleY := rfl
theorem m2_flat_5 (m : SkMatrix α) : m.flat 5 = m.transY := rfl
theorem m2_flat_6 (m : SkMatrix α) : m.flat 6 = m.persp0 := rfl
theorem m2_flat_7 (m : SkMatrix α) : m.flat 7 = m.persp1 := rfl
theorem m2_flat_8 (m : SkMatrix α) : m.flat 8 = m.persp2 := rfl

/-- Entries of `setConcat a b`, the loops unfolded. -/
theorem setConcat_eq (a b : SkMatrix3D α) :
    SkMatrix3D.setConcat a b =
      { m00 := a.m00 * b.m00 + a.m01 * b.m10 + a.m02 * b.m20,
        m01 := a.m00 * b.m01 + a.m01 * b.m11 + a.m02 * b.m21,
        m02 := a.m00 * b.m02 + a.m01 * b.m12 + a.m02 * b.m22,
        m03 := a.m00 * b.m03 + a.m01 * b.m13 + a.m02 * b.m23 + a.m03,
        m10 := a.m10 * b.m00 + a.m11 * b.m10 + a.m12 * b.m20,
        m11 := a.m10 * b.m01 + a.m11 * b.m11 + a.m12 * b.m21,
        m12 := a.m10 * b.m02 + a.m11 * b.m12 + a.m12 * b.m22,
        m13 := a.m10 * b.m03 + a.m11 * b.m13 + a.m12 * b.m23 + a.m13,
        m20 := a.m20 * b.m00 + a.m21 * b.m10 + a.m22 * b.m20,
        m21 := a.m20 * b.m01 + a.m21 * b.m11 + a.m22 * b.m21,
        m22 := a.m20 * b.m02 + a.m21 * b.m12 + a.m22 * b.m22,
        m23 := a.m20 * b.m03 + a.m21 * b.m13 + a.m22 * b.m23 + a.m23 } := by
  simp only [SkMatrix3D.setConcat, SkScalarDot_three, m3_ptr_apply, Nat.reduceMul, Nat.reduceAdd,
    m3_flat_0, m3_flat_1, m3_flat_2, m3_flat_3, m3_flat_4, m3_flat_5, m3_flat_6, m3_flat_7,
    m3_flat_8, m3_flat_9, m3_flat_10, m3_flat_11, zero_add]

/-- Coordinates of `mapPoint`. -/
theorem mapPoint_eq (m : SkMatrix3D α) (p : SkPoint3D α) :
    m.mapPoint p =
      { fX := m.m00 * p.fX + m.m01 * p.fY + m.m02 * p.fZ + m.m03,
        fY := m.m10 * p.fX + m.m11 * p.fY + m.m12 * p.fZ + m.m13,
        fZ := m.m20 * p.fX + m.m21 * p.fY + m.m22 * p.fZ + m.m23 } := by
  simp only [SkMatrix3D.mapPoint, SkScalarDot_three, m3_ptr_apply, Nat.reduceMul, Nat.reduceAdd,
    m3_flat_0, m3_flat_1, m3_flat_2, m3_flat_4, m3_flat_5, m3_flat_6, m3_flat_8, m3_flat_9,
    m3_flat_10, point_ptr_0, point_ptr_1, point_ptr_2, zero_add]

/-- Coordinates of `mapVector`. -/
theorem mapVector_eq (m : SkMatrix3D α) (p : SkVector3D α) :
    m.mapVector p =
      { fX := m.m00 * p.fX + m.m01 * p.fY + m.m02 * p.fZ,
        fY := m.m10 * p.fX + m.m11 * p.fY + m.m12 * p.fZ,
        fZ := m.m20 * p.fX + m.m21 * p.fY + m.m22 * p.fZ } := by
  simp only [SkMatrix3D.mapVector, SkScalarDot_three, m3_ptr_apply, Nat.reduceMul, Nat.reduceAdd,
    m3_flat_0, m3_flat_1, m3_flat_2, m3_flat_4, m3_flat_5, m3_flat_6, m3_flat_8, m3_flat_9,
    m3_flat_10, point_ptr_0, point_ptr_1, point_ptr_2, zero_add]

/-- Entries of `preTranslate`. -/
theorem preTranslate_eq (m : SkMatrix3D α) (x y z : α) :
    m.preTranslate x y z =
      { m with
        m03 := m.m03 + (m.m00 * x + m.m01 * y + m.m02 * z),
        m13 := m.m13 + (m.m10 * x + m.m11 * y + m.m12 * z),
        m23 := m.m23 + (m.m20 * x + m.m21 * y + m.m22 * z) } := by
  simp only [SkMatrix3D.preTranslate, SkScalarDot_three, m3_ptr_apply, Nat.reduceMul,
    Nat.reduceAdd, m3_flat_0, m3_flat_1, m3_flat_2, m3_flat_4, m3_flat_5, m3_flat_6, m3_flat_8,
    m3_flat_9, m3_flat_10, col_at_0, col_at_1, col_at_2, zero_add]

/-- The rotation written by `setRotateX` does not depend on the prior contents
of the matrix it is written into. -/
theorem setRotateX_prior (L : ScalarLib α) (m1 m2 : SkMatrix3D α) (deg : α) :
    SkMatrix3D.setRotateX L m1 deg = SkMatrix3D.setRotateX L m2 deg := by
  simp [SkMatrix3D.setRotateX, SkMatrix3D.setRow]

/-- The rotation written by `setRotateY` does not depend on the prior contents
of the matrix it is written into. -/
theorem setRotateY_prior (L : ScalarLib α) (m1 m2 : SkMatrix3D α) (deg : α) :
    SkMatrix3D.setRotateY L m1 deg = SkMatrix3D.setRotateY L m2 deg := by
  simp [SkMatrix3D.setRotateY, SkMatrix3D.setRow]

/-- The rotation written by `setRotateZ` does not depend on the prior contents
of the matrix it is written into. -/
theorem setRotateZ_prior (L : ScalarLib α) (m1 m2 : SkMatrix3D α) (deg : α) :
    SkMatrix3D.setRotateZ L m1 deg = SkMatrix3D.setRotateZ L m2 deg := by
  simp [SkMatrix3D.setRotateZ, SkMatrix3D.setRow]

/-- What `dotWith` computes, against the dot product with `u × v`. -/
theorem dotWith_eq_normalDot_add (p : SkPatch3D α) (dx dy dz : α) :
    p.dotWith dx dy dz = normalDot p dx dy dz + p.fU.fX * (p.fV.fZ - p.fV.fY) * dy := by
  simp only [SkPatch3D.dotWith, normalDot, patchNormal]
  ring

/-- The camera after `patchToMatrix` and the nine slots it writes. -/
theorem patchToMatrix_eq (L : ScalarLib α) (axis0 : SkUnit3D α) (c : SkCamera3D α)
    (quilt : SkPatch3D α) (matrix : SkMatrix (Option α)) :
    (c.patchToMatrix L axis0 quilt matrix).1 = c.refresh L axis0 ∧
    (c.patchToMatrix L axis0 quilt matrix).2 =
      (let o := (c.refresh L axis0).fOrientation
       let loc := (c.refresh L axis0).fLocation
       let d := (c.refresh L axis0).denom quilt
       let u := quilt.fU
       let v := quilt.fV
       let dx := quilt.fOrigin.fX - loc.fX
       let dy := quilt.fOrigin.fY - loc.fY
       let dz := quilt.fOrigin.fZ - loc.fZ
       { scaleX := quotient (u.fX * o.scaleX + u.fY * o.skewX + u.fZ * o.transX) d,
         skewY := quotient (u.fX * o.skewY + u.fY * o.scaleY + u.fZ * o.transY) d,
         persp0 := quotient (u.fX * o.persp0 + u.fY * o.persp1 + u.fZ * o.persp2) d,
         skewX := quotient (v.fX * o.scaleX + v.fY * o.skewX + v.fZ * o.transX) d,
         scaleY := quotient (v.fX * o.skewY + v.fY * o.scaleY + v.fZ * o.transY) d,
         persp1 := quotient (v.fX * o.persp0 + v.fY * o.persp1 + v.fZ * o.persp2) d,
         transX := quotient (dx * o.scaleX + dy * o.skewX + dz * o.transX) d,
         transY := quotient (dx * o.skewY + dy * o.scaleY + dz * o.transY) d,
         persp2 := some 1 }) := by
  refine ⟨rfl, ?_⟩
  simp only [SkCamera3D.patchToMatrix, SkScalarDotDiv_three, m2_ptr_apply, SkMatrix.set,
    SkMatrix.kMScaleX, SkMatrix.kMSkewX, SkMatrix.kMTransX, SkMatrix.kMSkewY, SkMatrix.kMScaleY,
    SkMatrix.kMTransY, SkMatrix.kMPersp0, SkMatrix.kMPersp1, SkMatrix.kMPersp2,
    Nat.reduceAdd, m2_flat_0, m2_flat_1, m2_flat_2, m2_flat_3, m2_flat_4, m2_flat_5, m2_flat_6,
    m2_flat_7, m2_flat_8, point_ptr_0, point_ptr_1, point_ptr_2, SkCamera3D.denom]
  rfl

/-- The default camera after its first refresh: the orientation rows are
`(576, 0, 0)`, `(0, -576, 0)` and `(0, 0, 1)`. -/
theorem refresh_new (L : ScalarLib α) (h : L.sk_float_sqrt 1 = 1) (axis0 : SkUnit3D α)
    (uninitCamera : SkCamera3D α) :
    (SkCamera3D.new uninitCamera).refresh L axis0 =
      { fLocation := ⟨0, 0, -576⟩, fAxis := ⟨0, 0, 1⟩, fZenith := ⟨0, -1, 0⟩,
        fObserver := ⟨0, 0, -576⟩,
        fOrientation := ⟨576, 0, 0, 0, -576, 0, 0, 0, 1⟩,
        fNeedToUpdate := false } := by
  simp [SkCamera3D.refresh, SkCamera3D.new, SkCamera3D.reset, SkCamera3D.doUpdate,
    SkPoint3D.normalize, SkUnit3D.Dot, SkUnit3D.Cross, h, SkMatrix.set,
    SkMatrix.kMScaleX, SkMatrix.kMSkewX, SkMatrix.kMTransX, SkMatrix.kMSkewY, SkMatrix.kMScaleY,
    SkMatrix.kMTransY, SkMatrix.kMPersp0, SkMatrix.kMPersp1, SkMatrix.kMPersp2]

/-! ## The record chain -/

theorem onMatrix_cons (r : Rec α) (next : List (Rec α)) (cam : SkCamera3D α)
    (f : SkMatrix3D α → SkMatrix3D α) :
    Sk3DView.onMatrix ⟨r :: next, cam⟩ f
      = some ⟨{ r with fMatrix := f r.fMatrix } :: next, cam⟩ := rfl

/-- A strictly nested sequence is well nested. -/
theorem nested_of_strict : ∀ (ops : List (ViewOp α)) (d : Nat),
    nested true d ops = true → nested false d ops = true := by
  intro ops
  induction ops with
  | nil => intro d h; simpa [nested] using h
  | cons op ops ih =>
    intro d h
    cases op with
    | save => simpa [nested] using ih (d + 1) (by simpa [nested] using h)
    | restore =>
      cases d with
      | zero => simp [nested] at h
      | succ d => simpa [nested] using ih d (by simpa [nested] using h)
    | translate x y z =>
      have h2 : 1 ≤ d ∧ nested true d ops = true := by simpa [nested] using h
      simpa [nested] using ih d h2.2
    | rotateX deg =>
      have h2 : 1 ≤ d ∧ nested true d ops = true := by simpa [nested] using h
      simpa [nested] using ih d h2.2
    | rotateY deg =>
      have h2 : 1 ≤ d ∧ nested true d ops = true := by simpa [nested] using h
      simpa [nested] using ih d h2.2
    | rotateZ deg =>
      have h2 : 1 ≤ d ∧ nested true d ops = true := by simpa [nested] using h
      simpa [nested] using ih d h2.2
    | dotWithNormal x y z => simp [nested] at h
    | getMatrix m => simp [nested] at h

/-- Running a strictly nested sequence from relative depth `top.length` removes
the records `top` pushed so far and leaves the chain `base` beneath them, and
the camera, as they were. -/
theorem runOps_nested (L : ScalarLib α) (tmp : SkMatrix3D α) (axis0 : SkUnit3D α)
    (cam : SkCamera3D α) (base : List (Rec α)) (hbase : base ≠ []) :
    ∀ (ops : List (ViewOp α)) (top : List (Rec α)), (∀ r ∈ top, r.addr = RecAddr.heap) →
      nested true top.length ops = true →
      runOps L tmp axis0 ⟨top ++ base, cam⟩ ops = some ⟨base, cam⟩ := by
  intro ops
  induction ops with
  | nil =>
    intro top _ h
    have : top = [] := by
      cases top with
      | nil => rfl
      | cons r t => simp [nested] at h
    subst this
    rfl
  | cons op ops ih =>
    intro top htop h
    have mutate : ∀ f : SkMatrix3D α → SkMatrix3D α, 1 ≤ top.length →
        ∃ top1 : List (Rec α),
          (Sk3DView.onMatrix ⟨top ++ base, cam⟩ f = some ⟨top1 ++ base, cam⟩)
          ∧ (∀ r ∈ top1, r.addr = RecAddr.heap) ∧ top1.length = top.length := by
      intro f hlen
      cases top with
      | nil => simp at hlen
      | cons r t =>
        refine ⟨{ r with fMatrix := f r.fMatrix } :: t, rfl, ?_, rfl⟩
        intro x hx
        rcases List.mem_cons.1 hx with rfl | hx
        · exact htop r (List.mem_cons_self _ _)
        · exact htop x (List.mem_cons_of_mem _ hx)
    cases op with
    | save =>
      cases hl : top ++ base with
      | nil => simp [hbase] at hl
      | cons r next =>
        have h1 : nested true
            (({ addr := RecAddr.heap, fMatrix := r.fMatrix } :: top).length) ops = true := by
          simpa [nested] using h
        have := ih ({ addr := RecAddr.heap, fMatrix := r.fMatrix } :: top) (by
          intro x hx
          rcases List.mem_cons.1 hx with rfl | hx
          · rfl
          · exact htop x hx) h1
        simp only [runOps, ViewOp.apply, Sk3DView.save]
        rw [List.cons_append, hl] at this
        exact this
    | restore =>
      cases top with
      | nil => simp [nested] at h
      | cons r t =>
        have hr : r.addr = RecAddr.heap := htop r (List.mem_cons_self _ _)
        have h1 : nested true t.length ops = true := by simpa [nested] using h
        have := ih t (fun x hx => htop x (List.mem_cons_of_mem _ hx)) h1
        simp only [runOps, ViewOp.apply, Sk3DView.restore, List.cons_append, hr]
        simpa using this
    | translate x y z =>
      have h2 : 1 ≤ top.length ∧ nested true top.length ops = true := by simpa [nested] using h
      obtain ⟨top1, e, ht1, hl1⟩ := mutate (fun m => m.preTranslate x y z) h2.1
      simp only [runOps, ViewOp.apply, Sk3DView.translate, e]
      exact ih top1 ht1 (by rw [hl1]; exact h2.2)
    | rotateX deg =>
      have h2 : 1 ≤ top.length ∧ nested true top.length ops = true := by simpa [nested] using h
      obtain ⟨top1, e, ht1, hl1⟩ := mutate (fun m => SkMatrix3D.preRotateX L tmp m deg) h2.1
      simp only [runOps, ViewOp.apply, Sk3DView.rotateX, e]
      exact ih top1 ht1 (by rw [hl1]; exact h2.2)
    | rotateY deg =>
      have h2 : 1 ≤ top.length ∧ nested true top.length ops = true := by simpa [nested] using h
      obtain ⟨top1, e, ht1, hl1⟩ := mutate (fun m => SkMatrix3D.preRotateY L tmp m deg) h2.1
      simp only [runOps, ViewOp.apply, Sk3DView.rotateY, e]
      exact ih top1 ht1 (by rw [hl1]; exact h2.2)
    | rotateZ deg =>
      have h2 : 1 ≤ top.length ∧ nested true top.length ops = true := by simpa [nested] using h
      obtain ⟨top1, e, ht1, hl1⟩ := mutate (fun m => SkMatrix3D.preRotateZ L tmp m deg) h2.1
      simp only [runOps, ViewOp.apply, Sk3DView.rotateZ, e]
      exact ih top1 ht1 (by rw [hl1]; exact h2.2)
    | dotWithNormal x y z => simp [nested] at h
    | getMatrix m => simp [nested] at h

/-- A sentinel chain is non-empty and ends in `fInitialRec`. -/
theorem sentinelChain_bottom : ∀ l : List (Rec α), sentinelChain l = true →
    l ≠ [] ∧ l.getLast?.map Rec.addr = some RecAddr.initialRec
  | [], h => by simp [sentinelChain] at h
  | [r], h => by simpa [sentinelChain] using h
  | r :: r1 :: next, h => by
    have h1 : sentinelChain (r1 :: next) = true := by
      simp only [sentinelChain, Bool.and_eq_true] at h
      exact h.2
    have := sentinelChain_bottom (r1 :: next) h1
    refine ⟨by simp, ?_⟩
    rw [List.getLast?_cons_cons]
    exact this.2

/-- In a sentinel chain the head is `fInitialRec` exactly when nothing lies
beneath it, and what lies beneath a heap record is again a sentinel chain. -/
theorem sentinelChain_head (r : Rec α) (next : List (Rec α))
    (h : sentinelChain (r :: next) = true) :
    (r.addr = RecAddr.initialRec ↔ next = []) ∧ (next ≠ [] → sentinelChain next = true) := by
  cases next with
  | nil => simpa [sentinelChain] using h
  | cons r1 t =>
    simp only [sentinelChain, Bool.and_eq_true, decide_eq_true_eq] at h
    simp [h.1, h.2]

/-- One successful call keeps the chain a sentinel chain and changes its
length by the call's `save`/`restore` balance. -/
theorem apply_sentinelChain (L : ScalarLib α) (tmp : SkMatrix3D α) (axis0 : SkUnit3D α)
    (v v1 : Sk3DView α) (op : ViewOp α) (h : sentinelChain v.fRec = true)
    (hop : op.apply L tmp axis0 v = some v1) :
    sentinelChain v1.fRec = true
    ∧ v1.fRec.length + countRestore [op] = v.fRec.length + countSave [op] := by
  obtain ⟨recs, cam⟩ := v
  cases recs with
  | nil => simp [sentinelChain] at h
  | cons r next =>
    have hh := sentinelChain_head r next h
    have mutate : ∀ m1 : SkMatrix3D α,
        sentinelChain ({ r with fMatrix := m1 } :: next) = true := by
      intro m1
      cases next with
      | nil => simpa [sentinelChain] using h
      | cons r1 t => simpa [sentinelChain] using h
    cases op with
    | save =>
      simp only [ViewOp.apply, Sk3DView.save, Option.some.injEq] at hop
      subst hop
      simp [sentinelChain, countSave, countRestore, h]
    | restore =>
      simp only [ViewOp.apply, Sk3DView.restore] at hop
      split_ifs at hop with hr
      simp only [Option.some.injEq] at hop
      subst hop
      have hne : next ≠ [] := fun e => hr (hh.1.2 e)
      exact ⟨hh.2 hne, by simp [countSave, countRestore]⟩
    | translate x y z =>
      simp only [ViewOp.apply, Sk3DView.translate, onMatrix_cons, Option.some.injEq] at hop
      subst hop
      exact ⟨mutate _, by simp [countSave, countRestore]⟩
    | rotateX deg =>
      simp only [ViewOp.apply, Sk3DView.rotateX, onMatrix_cons, Option.some.injEq] at hop
      subst hop
      exact ⟨mutate _, by simp [countSave, countRestore]⟩
    | rotateY deg =>
      simp only [ViewOp.apply, Sk3DView.rotateY, onMatrix_cons, Option.some.injEq] at hop
      subst hop
      exact ⟨mutate _, by simp [countSave, countRestore]⟩
    | rotateZ deg =>
      simp only [ViewOp.apply, Sk3DView.rotateZ, onMatrix_cons, Option.some.injEq] at hop
      subst hop
      exact ⟨mutate _, by simp [countSave, countRestore]⟩
    | dotWithNormal x y z =>
      simp only [ViewOp.apply, Sk3DView.dotWithNormal, Option.map_some', Option.some.injEq] at hop
      subst hop
      exact ⟨h, by simp [countSave, countRestore]⟩
    | getMatrix m =>
      cases m with
      | none =>
        simp only [ViewOp.apply, Sk3DView.getMatrix, Option.map_some', Option.some.injEq] at hop
        subst hop
        exact ⟨h, by simp [countSave, countRestore]⟩
      | some m =>
        simp only [ViewOp.apply, Sk3DView.getMatrix, Option.map_some', Option.some.injEq] at hop
        subst hop
        exact ⟨h, by simp [countSave, countRestore]⟩

/-- On a sentinel chain the only call that can fail is `restore` on the chain
that holds the sentinel alone. -/
theorem apply_none (L : ScalarLib α) (tmp : SkMatrix3D α) (axis0 : SkUnit3D α)
    (v : Sk3DView α) (op : ViewOp α) (h : sentinelChain v.fRec = true)
    (hop : op.apply L tmp axis0 v = none) :
    op = ViewOp.restore ∧ v.fRec.length = 1 := by
  obtain ⟨recs, cam⟩ := v
  cases recs with
  | nil => simp [sentinelChain] at h
  | cons r next =>
    have hh := sentinelChain_head r next h
    cases op with
    | save => simp [ViewOp.apply, Sk3DView.save] at hop
    | restore =>
      simp only [ViewOp.apply, Sk3DView.restore] at hop
      split_ifs at hop with hr
      have : next = [] := hh.1.1 (not_not.1 hr)
      simp [this]
    | translate x y z => simp [ViewOp.apply, Sk3DView.translate, onMatrix_cons] at hop
    | rotateX deg => simp [ViewOp.apply, Sk3DView.rotateX, onMatrix_cons] at hop
    | rotateY deg => simp [ViewOp.apply, Sk3DView.rotateY, onMatrix_cons] at hop
    | rotateZ deg => simp [ViewOp.apply, Sk3DView.rotateZ, onMatrix_cons] at hop
    | dotWithNormal x y z => simp [ViewOp.apply, Sk3DView.dotWithNormal] at hop
    | getMatrix m =>
      cases m with
      | none => simp [ViewOp.apply, Sk3DView.getMatrix] at hop
      | some m => simp [ViewOp.apply, Sk3DView.getMatrix] at hop

theorem countSave_cons (op : ViewOp α) (ops : List (ViewOp α)) :
    countSave (op :: ops) = countSave [op] + countSave ops := by
  cases op <;> simp [countSave, Nat.add_comm]

theorem countRestore_cons (op : ViewOp α) (ops : List (ViewOp α)) :
    countRestore (op :: ops) = countRestore [op] + countRestore ops := by
  cases op <;> simp [countRestore, Nat.add_comm]

/-- A successful run keeps the chain a sentinel chain and changes its length by
the balance of `save` and `restore` calls. -/
theorem runOps_sentinelChain (L : ScalarLib α) (tmp : SkMatrix3D α) (axis0 : SkUnit3D α) :
    ∀ (ops : List (ViewOp α)) (v v1 : Sk3DView α), sentinelChain v.fRec = true →
      runOps L tmp axis0 v ops = some v1 →
      sentinelChain v1.fRec = true
      ∧ v1.fRec.length + countRestore ops = v.fRec.length + countSave ops := by
  intro ops
  induction ops with
  | nil =>
    intro v v1 h hr
    simp only [runOps, Option.some.injEq] at hr
    subst hr
    exact ⟨h, rfl⟩
  | cons op ops ih =>
    intro v v1 h hr
    simp only [runOps] at hr
    cases hop : op.apply L tmp axis0 v with
    | none => simp [hop] at hr
    | some v2 =>
      rw [hop] at hr
      have h2 := apply_sentinelChain L tmp axis0 v v2 op h hop
      have h3 := ih v2 v1 h2.1 hr
      refine ⟨h3.1, ?_⟩
      rw [countSave_cons, countRestore_cons]
      omega

/-! ## The claims -/

/-- C1: composition law of `setConcat`.  For all transforms `a`, `b` and every
point `p`, mapping `p` by `setConcat a b` equals mapping it by `b` and then by
`a`; the linear block of `setConcat a b` is the matrix product of the linear
blocks, and its translation column is the linear block of `a` applied to the
translation column of `b`, plus the translation column of `a`. -/
theorem setConcat_composition (a b : SkMatrix3D α) (p : SkPoint3D α) :
    (SkMatrix3D.setConcat a b).mapPoint p = a.mapPoint (b.mapPoint p)
    ∧ linearBlock (SkMatrix3D.setConcat a b) = linearBlock a * linearBlock b
    ∧ translationColumn (SkMatrix3D.setConcat a b)
        = (linearBlock a).mulVec (translationColumn b) + translationColumn a := by
  refine ⟨?_, ?_, ?_⟩
  · simp only [mapPoint_eq, setConcat_eq, SkPoint3D.mk.injEq]
    refine ⟨?_, ?_, ?_⟩ <;> ring
  · rw [setConcat_eq]
    ext i j
    fin_cases i <;> fin_cases j <;>
      simp [linearBlock, Matrix.mul_apply, Fin.sum_univ_three]
  · rw [setConcat_eq]
    ext i
    fin_cases i <;>
      simp [linearBlock, translationColumn, Matrix.mulVec, Matrix.dotProduct,
        Fin.sum_univ_three] <;>
      ring

/-- C2, as stated, fails: the sequence `save, restore, translate(1,0,0), save,
restore` has two `save` and two `restore` calls, is well nested and begins with
a `save`, yet run on a fresh view it leaves the translation by `(1, 0, 0)` as
the current transform, which is not the identity the view began with. -/
theorem stack_balance_counterexample :
    stackSequence 2 betweenOps = true
    ∧ (runOps ratLib SkMatrix3D.reset zeroPoint (Sk3DView.new zeroCamera) betweenOps).bind
          Sk3DView.current = some (translationMatrix 1 0 0)
    ∧ (Sk3DView.new zeroCamera).current = some SkMatrix3D.reset
    ∧ translationMatrix (1 : ℚ) 0 0 ≠ SkMatrix3D.reset := by
  refine ⟨by decide, ?_, rfl, ?_⟩
  · simp [betweenOps, runOps, ViewOp.apply, Sk3DView.save, Sk3DView.restore, Sk3DView.new,
      Sk3DView.translate, Sk3DView.onMatrix, Sk3DView.current, preTranslate_eq, SkMatrix3D.reset,
      translationMatrix]
  · simp [translationMatrix, SkMatrix3D.reset]

/-- C2, amended: stack balance of `Sk3DView`.  For every view whose `fRec`
addresses a record and every well nested sequence of `save`, `restore`,
`translate` and `rotate` calls in which each `translate` or `rotate` call is
made while a `save` of the sequence is outstanding, the sequence runs without
failure and the view after it is the view before it: same record chain (so
same current transform and same depth) and same camera. -/
theorem stack_balance_inside (L : ScalarLib α) (tmp : SkMatrix3D α) (axis0 : SkUnit3D α)
    (v : Sk3DView α) (ops : List (ViewOp α)) (hv : v.fRec ≠ [])
    (h : nested true 0 ops = true) :
    runOps L tmp axis0 v ops = some v := by
  have := runOps_nested L tmp axis0 v.fCamera v.fRec hv ops [] (by simp) h
  simpa using this

/-- Witness of C2: a fresh view and the sequence `save, translate, rotateX,
save, restore, restore`. -/
theorem stack_balance_inside_witness :
    (Sk3DView.new zeroCamera).fRec ≠ [] ∧ nested true 0 insideOps = true
    ∧ runOps ratLib SkMatrix3D.reset zeroPoint (Sk3DView.new zeroCamera) insideOps
        = some (Sk3DView.new zeroCamera) :=
  ⟨by simp [Sk3DView.new], by decide,
    stack_balance_inside ratLib SkMatrix3D.reset zeroPoint (Sk3DView.new zeroCamera) insideOps
      (by simp [Sk3DView.new]) (by decide)⟩

/-- C3, evaluated at a failing input: for the patch `u = (1, 2, 3)`,
`v = (4, 5, 6)` and the direction `(0, 1, 0)` the dot product of `u × v` with
the direction is `6`, and `dotWith` returns `7`. -/
theorem dotWith_skewPatch_value :
    normalDot skewPatch 0 1 0 = 6 ∧ skewPatch.dotWith 0 1 0 = 7 := by
  constructor <;> norm_num [skewPatch, normalDot, patchNormal, SkPatch3D.dotWith]

/-- C4, evaluated at the input the claim names: the default patch has normal
`(0, 0, -1)`, the direction `(0, 1, 0)` is perpendicular to it, and `dotWith`
and `Sk3DView::dotWithNormal` on a fresh view return `1` for that direction,
not `0`. -/
theorem dotWith_default_perpendicular :
    patchNormal (SkPatch3D.reset : SkPatch3D ℚ) = { fX := 0, fY := 0, fZ := -1 }
    ∧ normalDot (SkPatch3D.reset : SkPatch3D ℚ) 0 1 0 = 0
    ∧ (SkPatch3D.reset : SkPatch3D ℚ).dotWith 0 1 0 = 1
    ∧ (Sk3DView.new zeroCamera).dotWithNormal 0 1 0 = some 1 := by
  refine ⟨?_, ?_, ?_, ?_⟩
  · simp [patchNormal, SkPatch3D.reset]
  · simp [normalDot, patchNormal, SkPatch3D.reset]
  · simp [SkPatch3D.dotWith, SkPatch3D.reset]
  · simp [Sk3DView.dotWithNormal, Sk3DView.new, SkPatch3D.transform, mapVector_eq, mapPoint_eq,
      SkMatrix3D.reset, SkPatch3D.dotWith, SkPatch3D.reset]

/-- C5: golden default projection.  With a square root that is exact at `1`,
`getMatrix` on a freshly constructed view writes the 2-D identity: scale-x,
scale-y and persp-2 are `1` and the six other slots are `0`. -/
theorem getMatrix_default_identity (L : ScalarLib α) (h : L.sk_float_sqrt 1 = 1)
    (axis0 : SkUnit3D α) (uninitCamera : SkCamera3D α) (m : SkMatrix (Option α)) :
    ((Sk3DView.new uninitCamera).getMatrix L axis0 (some m)).map Prod.snd
      = some (some identityMatrix) := by
  simp only [Sk3DView.getMatrix, Sk3DView.new, Option.map_some', Option.some.injEq]
  rw [(patchToMatrix_eq L axis0 _ _ m).2, refresh_new L h]
  simp [SkPatch3D.transform, SkPatch3D.reset, mapPoint_eq, mapVector_eq, SkMatrix3D.reset,
    SkCamera3D.denom, SkUnit3D.Dot, SkUnit3D.ofPtr, m2_ptr_apply, m2_flat_6, m2_flat_7,
    m2_flat_8, quotient, identityMatrix]

/-- Witness of C5: the rational scalar library. -/
theorem getMatrix_default_identity_witness :
    ratLib.sk_float_sqrt 1 = 1
    ∧ ((Sk3DView.new zeroCamera).getMatrix ratLib zeroPoint (some blankMatrix)).map Prod.snd
        = some (some identityMatrix) :=
  ⟨by simp [ratLib],
    getMatrix_default_identity ratLib (by simp [ratLib]) zeroPoint zeroCamera blankMatrix⟩

/-- C6, as stated, fails: for the default camera and the default patch moved
to the camera location the perspective denominator is zero, and the matrix
that `patchToMatrix` writes has slots that are not defined scalars. -/
theorem patchToMatrix_focal_undefined :
    ((SkCamera3D.new zeroCamera).refresh ratLib zeroPoint).denom focalPatch = 0
    ∧ allDefined
        ((SkCamera3D.new zeroCamera).patchToMatrix ratLib zeroPoint focalPatch blankMatrix).2
        = false := by
  have h : ratLib.sk_float_sqrt 1 = 1 := by simp [ratLib]
  have hd : ((SkCamera3D.new zeroCamera).refresh ratLib zeroPoint).denom focalPatch = 0 := by
    rw [refresh_new ratLib h]
    simp [SkCamera3D.denom, SkUnit3D.Dot, SkUnit3D.ofPtr, m2_ptr_apply, m2_flat_6, m2_flat_7,
      m2_flat_8, focalPatch]
  refine ⟨hd, ?_⟩
  rw [(patchToMatrix_eq ratLib zeroPoint _ focalPatch blankMatrix).2]
  simp [hd, quotient, allDefined]

/-- C6, amended: degenerate projection.  For every camera and patch whose
perspective denominator is exactly zero, `patchToMatrix` applies no guard: each
of the eight computed slots is the undefined quotient by zero, and persp-2 is
the unit value. -/
theorem patchToMatrix_zero_denom (L : ScalarLib α) (axis0 : SkUnit3D α) (c : SkCamera3D α)
    (quilt : SkPatch3D α) (matrix : SkMatrix (Option α))
    (h : (c.refresh L axis0).denom quilt = 0) :
    (c.patchToMatrix L axis0 quilt matrix).2 =
      { scaleX := none, skewX := none, transX := none,
        skewY := none, scaleY := none, transY := none,
        persp0 := none, persp1 := none, persp2 := some 1 } := by
  rw [(patchToMatrix_eq L axis0 c quilt matrix).2]
  simp [h, quotient]

/-- Witness of C6: the default camera and the patch at the camera location. -/
theorem patchToMatrix_zero_denom_witness :
    ((SkCamera3D.new zeroCamera).refresh ratLib zeroPoint).denom focalPatch = 0
    ∧ ((SkCamera3D.new zeroCamera).patchToMatrix ratLib zeroPoint focalPatch blankMatrix).2 =
      { scaleX := none, skewX := none, transX := none,
        skewY := none, scaleY := none, transY := none,
        persp0 := none, persp1 := none, persp2 := some 1 } := by
  have hd : ((SkCamera3D.new zeroCamera).refresh ratLib zeroPoint).denom focalPatch = 0 := by
    rw [refresh_new ratLib (by simp [ratLib])]
    simp [SkCamera3D.denom, SkUnit3D.Dot, SkUnit3D.ofPtr, m2_ptr_apply, m2_flat_6, m2_flat_7,
      m2_flat_8, focalPatch]
  exact ⟨hd, patchToMatrix_zero_denom ratLib zeroPoint (SkCamera3D.new zeroCamera) focalPatch
    blankMatrix hd⟩

/-- C7: stack underflow.  In a view whose record chain is a sentinel chain,
`restore` fails exactly when the chain holds only the sentinel record; in every
other such view it succeeds, the record chain after it is the chain without
its top record (one record shorter, again a sentinel chain), and the current
transform is that of the record that was second. -/
theorem restore_underflow (v : Sk3DView α) (h : sentinelChain v.fRec = true) :
    (v.restore = none ↔ v.fRec.length = 1)
    ∧ (v.fRec.length ≠ 1 →
        v.restore = some { v with fRec := v.fRec.tail }
        ∧ v.fRec.tail.length + 1 = v.fRec.length
        ∧ sentinelChain v.fRec.tail = true
        ∧ Sk3DView.current { v with fRec := v.fRec.tail } = (v.fRec.get? 1).map Rec.fMatrix) := by
  obtain ⟨recs, cam⟩ := v
  cases recs with
  | nil => simp [sentinelChain] at h
  | cons r next =>
    have hh := sentinelChain_head r next h
    cases next with
    | nil =>
      have : r.addr = RecAddr.initialRec := hh.1.2 rfl
      simp [Sk3DView.restore, this]
    | cons r1 t =>
      have hne : r.addr ≠ RecAddr.initialRec := fun e => by simpa using hh.1.1 e
      have := hh.2 (by simp)
      simp [Sk3DView.restore, hne, this, Sk3DView.current]

/-- Witness of C7: a view one `save()` deep. -/
theorem restore_underflow_witness :
    sentinelChain savedView.fRec = true
    ∧ (savedView.restore = none ↔ savedView.fRec.length = 1)
    ∧ (savedView.fRec.length ≠ 1 →
        savedView.restore = some { savedView with fRec := savedView.fRec.tail }
        ∧ savedView.fRec.tail.length + 1 = savedView.fRec.length
        ∧ sentinelChain savedView.fRec.tail = true
        ∧ Sk3DView.current { savedView with fRec := savedView.fRec.tail }
            = (savedView.fRec.get? 1).map Rec.fMatrix) :=
  ⟨by decide, restore_underflow savedView (by decide)⟩

/-- C8: sentinel invariant.  In every view reached from the constructor by a
sequence of `save`, `restore`, `translate`, `rotateX/Y/Z`, `dotWithNormal` and
`getMatrix` calls none of which fails, the record chain is non-empty, its
bottom record is `fInitialRec`, every record above the bottom is a heap
record, and the number of records is one plus the number of `save` calls
minus the number of `restore` calls.  In such a view the only call that can
fail is `restore` when the sentinel is the only record. -/
theorem sentinel_invariant (L : ScalarLib α) (tmp : SkMatrix3D α) (axis0 : SkUnit3D α)
    (uninitCamera : SkCamera3D α) (ops : List (ViewOp α)) (v : Sk3DView α)
    (h : runOps L tmp axis0 (Sk3DView.new uninitCamera) ops = some v) :
    v.fRec ≠ []
    ∧ v.fRec.getLast?.map Rec.addr = some RecAddr.initialRec
    ∧ sentinelChain v.fRec = true
    ∧ v.fRec.length + countRestore ops = 1 + countSave ops
    ∧ ∀ op : ViewOp α, op.apply L tmp axis0 v = none → op = ViewOp.restore ∧ v.fRec.length = 1 := by
  have h0 : sentinelChain (Sk3DView.new uninitCamera).fRec = true := by
    simp [Sk3DView.new, sentinelChain]
  have := runOps_sentinelChain L tmp axis0 ops _ v h0 h
  have hb := sentinelChain_bottom v.fRec this.1
  exact ⟨hb.1, hb.2, this.1, by simpa [Sk3DView.new] using this.2,
    fun op hop => apply_none L tmp axis0 v op this.1 hop⟩

/-- Witness of C8: the sequence `deepOps` run on a fresh view ends in
`savedView`, two records deep after two `save` calls and one `restore`. -/
theorem sentinel_invariant_witness :
    runOps ratLib SkMatrix3D.reset zeroPoint (Sk3DView.new zeroCamera) deepOps = some savedView
    ∧ savedView.fRec ≠ []
    ∧ savedView.fRec.getLast?.map Rec.addr = some RecAddr.initialRec
    ∧ sentinelChain savedView.fRec = true
    ∧ savedView.fRec.length + countRestore deepOps = 1 + countSave deepOps := by
  have hrun : runOps ratLib SkMatrix3D.reset zeroPoint (Sk3DView.new zeroCamera) deepOps
      = some savedView := by
    simp [deepOps, runOps, ViewOp.apply, Sk3DView.save, Sk3DView.restore, Sk3DView.new,
      Sk3DView.translate, Sk3DView.onMatrix, Sk3DView.getMatrix, savedView, preTranslate_eq,
      SkMatrix3D.reset, translationMatrix]
  have h := sentinel_invariant ratLib SkMatrix3D.reset zeroPoint zeroCamera deepOps savedView hrun
  exact ⟨hrun, h.1, h.2.1, h.2.2.1, h.2.2.2.1⟩

/-- C9: rotation round-trip.  For every transform `m` and angle `deg`, if the
sine and cosine the library returns for `-deg` are the negated sine and the same
cosine it returns for `deg`, and the squares of the latter two sum to `1`, then
`preRotateX(deg)` followed by `preRotateX(-deg)` gives `m` again, linear block
and translation column alike, whatever the local matrices held before
`setRotateX` wrote them. -/
theorem preRotateX_roundtrip (L : ScalarLib α) (tmp1 tmp2 m : SkMatrix3D α) (deg : α)
    (hs : (L.SkScalarSinCos (L.SkDegreesToRadians (-deg))).1
      = -(L.SkScalarSinCos (L.SkDegreesToRadians deg)).1)
    (hc : (L.SkScalarSinCos (L.SkDegreesToRadians (-deg))).2
      = (L.SkScalarSinCos (L.SkDegreesToRadians deg)).2)
    (h1 : (L.SkScalarSinCos (L.SkDegreesToRadians deg)).1 ^ 2
      + (L.SkScalarSinCos (L.SkDegreesToRadians deg)).2 ^ 2 = 1) :
    SkMatrix3D.preRotateX L tmp2 (SkMatrix3D.preRotateX L tmp1 m deg) (-deg) = m := by
  simp only [SkMatrix3D.preRotateX, SkMatrix3D.setRotateX, SkMatrix3D.setRow, setConcat_eq, hs, hc]
  generalize (L.SkScalarSinCos (L.SkDegreesToRadians deg)).1 = s at h1 ⊢
  generalize (L.SkScalarSinCos (L.SkDegreesToRadians deg)).2 = c at h1 ⊢
  obtain ⟨a00, a01, a02, a03, a10, a11, a12, a13, a20, a21, a22, a23⟩ := m
  simp only [SkMatrix3D.mk.injEq]
  refine ⟨by ring, ?_, ?_, by ring, by ring, ?_, ?_, by ring, by ring, ?_, ?_, by ring⟩
  · linear_combination a01 * h1
  · linear_combination a02 * h1
  · linear_combination a11 * h1
  · linear_combination a12 * h1
  · linear_combination a21 * h1
  · linear_combination a22 * h1

/-- Witness of C9: the rational library at `deg = 1`, where the sine is `4/5`
and the cosine `3/5`, applied to the translation by `(1, 2, 3)`. -/
theorem preRotateX_roundtrip_witness :
    ratLib.SkScalarSinCos (ratLib.SkDegreesToRadians 1) = (4 / 5, 3 / 5)
    ∧ ratLib.SkScalarSinCos (ratLib.SkDegreesToRadians (-1)) = (-(4 / 5), 3 / 5)
    ∧ SkMatrix3D.preRotateX ratLib SkMatrix3D.reset
        (SkMatrix3D.preRotateX ratLib SkMatrix3D.reset (translationMatrix 1 2 3) 1) (-1)
      = translationMatrix 1 2 3 :=
  ⟨by norm_num [ratLib], by norm_num [ratLib],
    preRotateX_roundtrip ratLib SkMatrix3D.reset SkMatrix3D.reset (translationMatrix 1 2 3) 1
      (by norm_num [ratLib]) (by norm_num [ratLib]) (by norm_num [ratLib])⟩

/-- C10: `preTranslate` right-multiplies by a translation.  For every transform
`m`, offset `(x, y, z)` and point `p`, mapping `p` by `m.preTranslate x y z`
equals mapping `p + (x, y, z)` by `m`; the linear block is that of `m`; and the
result is `setConcat m t` for the transform `t` with identity linear block and
translation column `(x, y, z)`. -/
theorem preTranslate_refines (m : SkMatrix3D α) (x y z : α) (p : SkPoint3D α) :
    (m.preTranslate x y z).mapPoint p
      = m.mapPoint { fX := p.fX + x, fY := p.fY + y, fZ := p.fZ + z }
    ∧ linearBlock (m.preTranslate x y z) = linearBlock m
    ∧ m.preTranslate x y z = SkMatrix3D.setConcat m (translationMatrix x y z) := by
  refine ⟨?_, ?_, ?_⟩
  · simp only [mapPoint_eq, preTranslate_eq, SkPoint3D.mk.injEq]
    refine ⟨?_, ?_, ?_⟩ <;> ring
  · simp [linearBlock, preTranslate_eq]
  · simp only [preTranslate_eq, setConcat_eq, translationMatrix, SkMatrix3D.mk.injEq]
    refine ⟨?_, ?_, ?_, ?_, ?_, ?_, ?_, ?_, ?_, ?_, ?_, ?_⟩ <;> ring

/-! ## Rotations, the descriptor and the projection -/

/-- The twelve entries `setRotateX` writes. -/
theorem setRotateX_eq (L : ScalarLib α) (m : SkMatrix3D α) (deg : α) :
    SkMatrix3D.setRotateX L m deg =
      { m00 := 1, m01 := 0, m02 := 0, m03 := 0,
        m10 := 0, m11 := (L.SkScalarSinCos (L.SkDegreesToRadians deg)).2,
        m12 := -(L.SkScalarSinCos (L.SkDegreesToRadians deg)).1, m13 := 0,
        m20 := 0, m21 := (L.SkScalarSinCos (L.SkDegreesToRadians deg)).1,
        m22 := (L.SkScalarSinCos (L.SkDegreesToRadians deg)).2, m23 := 0 } := by
  simp [SkMatrix3D.setRotateX, SkMatrix3D.setRow]

/-- The twelve entries `setRotateY` writes. -/
theorem setRotateY_eq (L : ScalarLib α) (m : SkMatrix3D α) (deg : α) :
    SkMatrix3D.setRotateY L m deg =
      { m00 := (L.SkScalarSinCos (L.SkDegreesToRadians deg)).2, m01 := 0,
        m02 := -(L.SkScalarSinCos (L.SkDegreesToRadians deg)).1, m03 := 0,
        m10 := 0, m11 := 1, m12 := 0, m13 := 0,
        m20 := (L.SkScalarSinCos (L.SkDegreesToRadians deg)).1, m21 := 0,
        m22 := (L.SkScalarSinCos (L.SkDegreesToRadians deg)).2, m23 := 0 } := by
  simp [SkMatrix3D.setRotateY, SkMatrix3D.setRow]

/-- The twelve entries `setRotateZ` writes. -/
theorem setRotateZ_eq (L : ScalarLib α) (m : SkMatrix3D α) (deg : α) :
    SkMatrix3D.setRotateZ L m deg =
      { m00 := (L.SkScalarSinCos (L.SkDegreesToRadians deg)).2,
        m01 := -(L.SkScalarSinCos (L.SkDegreesToRadians deg)).1, m02 := 0, m03 := 0,
        m10 := (L.SkScalarSinCos (L.SkDegreesToRadians deg)).1,
        m11 := (L.SkScalarSinCos (L.SkDegreesToRadians deg)).2, m12 := 0, m13 := 0,
        m20 := 0, m21 := 0, m22 := 1, m23 := 0 } := by
  simp [SkMatrix3D.setRotateZ, SkMatrix3D.setRow]

/-- The descriptor `doUpdate` stores, in terms of its locals. -/
theorem doUpdate_orientation (L : ScalarLib α) (axis0 : SkUnit3D α) (c : SkCamera3D α) :
    (c.doUpdate L axis0).fOrientation =
      { scaleX := c.fObserver.fX * (forwardVector L axis0 c).fX
          - c.fObserver.fZ * (rightVector L axis0 c).fX,
        skewX := c.fObserver.fX * (forwardVector L axis0 c).fY
          - c.fObserver.fZ * (rightVector L axis0 c).fY,
        transX := c.fObserver.fX * (forwardVector L axis0 c).fZ
          - c.fObserver.fZ * (rightVector L axis0 c).fZ,
        skewY := c.fObserver.fY * (forwardVector L axis0 c).fX
          - c.fObserver.fZ * (upVector L axis0 c).fX,
        scaleY := c.fObserver.fY * (forwardVector L axis0 c).fY
          - c.fObserver.fZ * (upVector L axis0 c).fY,
        transY := c.fObserver.fY * (forwardVector L axis0 c).fZ
          - c.fObserver.fZ * (upVector L axis0 c).fZ,
        persp0 := (forwardVector L axis0 c).fX,
        persp1 := (forwardVector L axis0 c).fY,
        persp2 := (forwardVector L axis0 c).fZ } := rfl

/-- The three rows of a descriptor. -/
theorem orientationRow_eq (c : SkCamera3D α) :
    orientationRow c 0 = ⟨c.fOrientation.scaleX, c.fOrientation.skewX, c.fOrientation.transX⟩
    ∧ orientationRow c 1 = ⟨c.fOrientation.skewY, c.fOrientation.scaleY, c.fOrientation.transY⟩
    ∧ orientationRow c 2 = ⟨c.fOrientation.persp0, c.fOrientation.persp1, c.fOrientation.persp2⟩ :=
  ⟨rfl, rfl, rfl⟩

/-- The perspective denominator is the dot product of `diff` with row 2. -/
theorem denom_eq (c : SkCamera3D α) (quilt : SkPatch3D α) :
    c.denom quilt = SkUnit3D.Dot (originDiff c quilt) (orientationRow c 2) := rfl

/-- The slots `patchToMatrix` writes, as dot products with the descriptor rows. -/
theorem patchToMatrix_rows (L : ScalarLib α) (axis0 : SkUnit3D α) (c : SkCamera3D α)
    (quilt : SkPatch3D α) (matrix : SkMatrix (Option α)) :
    (c.patchToMatrix L axis0 quilt matrix).2 =
      { scaleX := quotient (SkUnit3D.Dot quilt.fU (orientationRow (c.refresh L axis0) 0))
          ((c.refresh L axis0).denom quilt),
        skewY := quotient (SkUnit3D.Dot quilt.fU (orientationRow (c.refresh L axis0) 1))
          ((c.refresh L axis0).denom quilt),
        persp0 := quotient (SkUnit3D.Dot quilt.fU (orientationRow (c.refresh L axis0) 2))
          ((c.refresh L axis0).denom quilt),
        skewX := quotient (SkUnit3D.Dot quilt.fV (orientationRow (c.refresh L axis0) 0))
          ((c.refresh L axis0).denom quilt),
        scaleY := quotient (SkUnit3D.Dot quilt.fV (orientationRow (c.refresh L axis0) 1))
          ((c.refresh L axis0).denom quilt),
        persp1 := quotient (SkUnit3D.Dot quilt.fV (orientationRow (c.refresh L axis0) 2))
          ((c.refresh L axis0).denom quilt),
        transX := quotient
          (SkUnit3D.Dot (originDiff (c.refresh L axis0) quilt) (orientationRow (c.refresh L axis0) 0))
          ((c.refresh L axis0).denom quilt),
        transY := quotient
          (SkUnit3D.Dot (originDiff (c.refresh L axis0) quilt) (orientationRow (c.refresh L axis0) 1))
          ((c.refresh L axis0).denom quilt),
        persp2 := some 1 } := by
  rw [(patchToMatrix_eq L axis0 c quilt matrix).2]
  rfl

/-- `translate` leaves the linear entries of the current matrix as they were,
so the vectors `mapVector` produces do not change. -/
theorem preTranslate_mapVector (m : SkMatrix3D α) (x y z : α) (p : SkVector3D α) :
    (m.preTranslate x y z).mapVector p = m.mapVector p := by
  simp only [mapVector_eq, preTranslate_eq]

/-! ## The claims, continued -/

/-- C11, evaluated at a failing input: at the quarter turn, where the library
gives sine `1` and cosine `0`, `setRotateX` and `setRotateZ` write the standard
right-handed `Rx` and `Rz`, which carry `y` to `z` and `x` to `y`;
`setRotateY` writes `[[0,0,-1],[0,1,0],[1,0,0]]`, which carries `z` to `-x`,
where the standard `Ry = [[0,0,1],[0,1,0],[-1,0,0]]` carries `z` to `x`. -/
theorem setRotateY_not_standard :
    ratLib.SkScalarSinCos (ratLib.SkDegreesToRadians 2) = (1, 0)
    ∧ linearBlock (SkMatrix3D.setRotateX ratLib SkMatrix3D.reset 2) = standardRx 1 0
    ∧ linearBlock (SkMatrix3D.setRotateZ ratLib SkMatrix3D.reset 2) = standardRz 1 0
    ∧ linearBlock (SkMatrix3D.setRotateY ratLib SkMatrix3D.reset 2)
        = !![0, 0, -1; 0, 1, 0; 1, 0, 0]
    ∧ standardRy (1 : ℚ) 0 = !![0, 0, 1; 0, 1, 0; -1, 0, 0]
    ∧ linearBlock (SkMatrix3D.setRotateY ratLib SkMatrix3D.reset 2) ≠ standardRy 1 0
    ∧ (SkMatrix3D.setRotateX ratLib SkMatrix3D.reset 2).mapVector ⟨0, 1, 0⟩ = ⟨0, 0, 1⟩
    ∧ (SkMatrix3D.setRotateZ ratLib SkMatrix3D.reset 2).mapVector ⟨1, 0, 0⟩ = ⟨0, 1, 0⟩
    ∧ (SkMatrix3D.setRotateY ratLib SkMatrix3D.reset 2).mapVector ⟨0, 0, 1⟩ = ⟨-1, 0, 0⟩ := by
  have h : ratLib.SkScalarSinCos (ratLib.SkDegreesToRadians 2) = (1, 0) := by
    norm_num [ratLib]
  have hy : linearBlock (SkMatrix3D.setRotateY ratLib SkMatrix3D.reset 2)
      = !![0, 0, -1; 0, 1, 0; 1, 0, 0] := by
    rw [setRotateY_eq, h]
    simp [linearBlock]
  refine ⟨h, ?_, ?_, hy, rfl, ?_, ?_, ?_, ?_⟩
  · rw [setRotateX_eq, h]
    simp [linearBlock, standardRx]
  · rw [setRotateZ_eq, h]
    simp [linearBlock, standardRz]
  · rw [hy]
    intro e
    have := congrFun (congrFun e 0) 2
    norm_num [standardRy] at this
  · rw [setRotateX_eq, h, mapVector_eq]
    norm_num
  · rw [setRotateZ_eq, h, mapVector_eq]
    norm_num
  · rw [setRotateY_eq, h, mapVector_eq]
    norm_num

/-- The linear blocks the three routines write for every angle, with `s` and
`c` the sine and cosine the library returns: `setRotateX` and `setRotateZ`
write the standard `Rx` and `Rz`, `setRotateY` writes
`[[c,0,-s],[0,1,0],[s,0,c]]`, the transpose of the standard `Ry`; all three
write a zero translation column. -/
theorem setRotate_blocks (L : ScalarLib α) (m : SkMatrix3D α) (deg : α) :
    linearBlock (SkMatrix3D.setRotateX L m deg)
        = standardRx (L.SkScalarSinCos (L.SkDegreesToRadians deg)).1
            (L.SkScalarSinCos (L.SkDegreesToRadians deg)).2
    ∧ linearBlock (SkMatrix3D.setRotateY L m deg)
        = !![(L.SkScalarSinCos (L.SkDegreesToRadians deg)).2, 0,
              -(L.SkScalarSinCos (L.SkDegreesToRadians deg)).1;
             0, 1, 0;
             (L.SkScalarSinCos (L.SkDegreesToRadians deg)).1, 0,
              (L.SkScalarSinCos (L.SkDegreesToRadians deg)).2]
    ∧ linearBlock (SkMatrix3D.setRotateY L m deg)
        = (standardRy (L.SkScalarSinCos (L.SkDegreesToRadians deg)).1
            (L.SkScalarSinCos (L.SkDegreesToRadians deg)).2).transpose
    ∧ linearBlock (SkMatrix3D.setRotateY L m deg)
        = standardRy (-(L.SkScalarSinCos (L.SkDegreesToRadians deg)).1)
            (L.SkScalarSinCos (L.SkDegreesToRadians deg)).2
    ∧ linearBlock (SkMatrix3D.setRotateZ L m deg)
        = standardRz (L.SkScalarSinCos (L.SkDegreesToRadians deg)).1
            (L.SkScalarSinCos (L.SkDegreesToRadians deg)).2
    ∧ translationColumn (SkMatrix3D.setRotateX L m deg) = 0
    ∧ translationColumn (SkMatrix3D.setRotateY L m deg) = 0
    ∧ translationColumn (SkMatrix3D.setRotateZ L m deg) = 0 := by
  rw [setRotateX_eq, setRotateY_eq, setRotateZ_eq]
  refine ⟨rfl, rfl, ?_, ?_, rfl, ?_, ?_, ?_⟩
  · ext i j
    fin_cases i <;> fin_cases j <;> simp [linearBlock, standardRy, Matrix.transpose_apply]
  · simp [linearBlock, standardRy]
  · ext i; fin_cases i <;> simp [translationColumn]
  · ext i; fin_cases i <;> simp [translationColumn]
  · ext i; fin_cases i <;> simp [translationColumn]

/-- C12: projection slot layout.  With `row0, row1, row2` the rows of the
up-to-date descriptor, `diff` the patch origin minus the camera location and
`denom = diff · row2`, `patchToMatrix` always writes the unit value into
persp-2, and when `denom ≠ 0` it writes scale-x `= u·row0/denom`, skew-y
`= u·row1/denom`, persp-0 `= u·row2/denom`, skew-x `= v·row0/denom`, scale-y
`= v·row1/denom`, persp-1 `= v·row2/denom`, translate-x `= diff·row0/denom` and
translate-y `= diff·row1/denom`. -/
theorem patchToMatrix_layout (L : ScalarLib α) (axis0 : SkUnit3D α) (c : SkCamera3D α)
    (quilt : SkPatch3D α) (matrix : SkMatrix (Option α)) :
    (c.patchToMatrix L axis0 quilt matrix).2.persp2 = some 1
    ∧ ((c.refresh L axis0).denom quilt
          = SkUnit3D.Dot (originDiff (c.refresh L axis0) quilt) (orientationRow (c.refresh L axis0) 2))
    ∧ ((c.refresh L axis0).denom quilt ≠ 0 →
        (c.patchToMatrix L axis0 quilt matrix).2 =
          { scaleX := some (SkUnit3D.Dot quilt.fU (orientationRow (c.refresh L axis0) 0)
              / (c.refresh L axis0).denom quilt),
            skewY := some (SkUnit3D.Dot quilt.fU (orientationRow (c.refresh L axis0) 1)
              / (c.refresh L axis0).denom quilt),
            persp0 := some (SkUnit3D.Dot quilt.fU (orientationRow (c.refresh L axis0) 2)
              / (c.refresh L axis0).denom quilt),
            skewX := some (SkUnit3D.Dot quilt.fV (orientationRow (c.refresh L axis0) 0)
              / (c.refresh L axis0).denom quilt),
            scaleY := some (SkUnit3D.Dot quilt.fV (orientationRow (c.refresh L axis0) 1)
              / (c.refresh L axis0).denom quilt),
            persp1 := some (SkUnit3D.Dot quilt.fV (orientationRow (c.refresh L axis0) 2)
              / (c.refresh L axis0).denom quilt),
            transX := some (SkUnit3D.Dot (originDiff (c.refresh L axis0) quilt)
              (orientationRow (c.refresh L axis0) 0) / (c.refresh L axis0).denom quilt),
            transY := some (SkUnit3D.Dot (originDiff (c.refresh L axis0) quilt)
              (orientationRow (c.refresh L axis0) 1) / (c.refresh L axis0).denom quilt),
            persp2 := some 1 }) := by
  refine ⟨?_, rfl, ?_⟩
  · rw [patchToMatrix_rows]
  · intro h
    rw [patchToMatrix_rows]
    simp [quotient, h]

/-- C19: the written matrix is the perspective map of the patch plane.  When
the denominator is not zero, applying the written matrix to `(s, t, 1)` gives
`x' = D·row0/denom`, `y' = D·row1/denom`, `w = D·row2/denom`, where
`D = (origin + s·u + t·v) - location`. -/
theorem patchToMatrix_perspective (L : ScalarLib α) (axis0 : SkUnit3D α) (c : SkCamera3D α)
    (quilt : SkPatch3D α) (matrix : SkMatrix (Option α)) (s t : α)
    (h : (c.refresh L axis0).denom quilt ≠ 0) :
    mapHomogeneous (c.patchToMatrix L axis0 quilt matrix).2 s t =
      some
        (SkUnit3D.Dot
            (subVector
              { fX := quilt.fOrigin.fX + s * quilt.fU.fX + t * quilt.fV.fX,
                fY := quilt.fOrigin.fY + s * quilt.fU.fY + t * quilt.fV.fY,
                fZ := quilt.fOrigin.fZ + s * quilt.fU.fZ + t * quilt.fV.fZ }
              (c.refresh L axis0).fLocation)
            (orientationRow (c.refresh L axis0) 0) / (c.refresh L axis0).denom quilt,
          SkUnit3D.Dot
            (subVector
              { fX := quilt.fOrigin.fX + s * quilt.fU.fX + t * quilt.fV.fX,
                fY := quilt.fOrigin.fY + s * quilt.fU.fY + t * quilt.fV.fY,
                fZ := quilt.fOrigin.fZ + s * quilt.fU.fZ + t * quilt.fV.fZ }
              (c.refresh L axis0).fLocation)
            (orientationRow (c.refresh L axis0) 1) / (c.refresh L axis0).denom quilt,
          SkUnit3D.Dot
            (subVector
              { fX := quilt.fOrigin.fX + s * quilt.fU.fX + t * quilt.fV.fX,
                fY := quilt.fOrigin.fY + s * quilt.fU.fY + t * quilt.fV.fY,
                fZ := quilt.fOrigin.fZ + s * quilt.fU.fZ + t * quilt.fV.fZ }
              (c.refresh L axis0).fLocation)
            (orientationRow (c.refresh L axis0) 2) / (c.refresh L axis0).denom quilt) := by
  rw [patchToMatrix_rows]
  have hd := denom_eq (c.refresh L axis0) quilt
  generalize (c.refresh L axis0).denom quilt = d at h hd ⊢
  simp only [quotient, h, if_false, mapHomogeneous, Option.some.injEq, Prod.mk.injEq]
  simp only [SkUnit3D.Dot, subVector, originDiff] at hd ⊢
  refine ⟨?_, ?_, ?_⟩
  · field_simp
    ring
  · field_simp
    ring
  · field_simp
    rw [hd]
    ring

/-- C20: facing is translation-independent.  For every view, offset and
direction, `dotWithNormal` after `translate` returns what it returns before
it. -/
theorem dotWithNormal_translate (v : Sk3DView α) (tx ty tz x y z : α) :
    (v.translate tx ty tz).bind (fun v1 => v1.dotWithNormal x y z) = v.dotWithNormal x y z := by
  obtain ⟨recs, cam⟩ := v
  cases recs with
  | nil => rfl
  | cons r next =>
    simp only [Sk3DView.translate, onMatrix_cons, Option.some_bind, Sk3DView.dotWithNormal,
      SkPatch3D.transform, SkPatch3D.dotWith, preTranslate_mapVector]

/-! ## Normalisation and the camera basis -/

/-- The rational library takes the exact root of the square of a natural
number. -/
theorem ratLib_sqrt_sq (n : ℕ) : ratLib.sk_float_sqrt ((n : ℚ) * n) = n := by
  have h : ((n : ℚ) * n) = ((n * n : ℕ) : ℚ) := by push_cast; ring
  have hnum : ((n : ℚ) * n).num = ((n * n : ℕ) : ℤ) := by rw [h]; exact Rat.num_natCast _
  have hden : ((n : ℚ) * n).den = 1 := by rw [h]; exact Rat.den_natCast _
  simp only [ratLib, hnum, hden, Int.toNat_ofNat, Nat.sqrt_eq, Nat.sqrt_one, Nat.cast_one,
    div_one]

theorem ratLib_sqrt_0 : ratLib.sk_float_sqrt 0 = 0 := by
  simpa using ratLib_sqrt_sq 0

theorem ratLib_sqrt_1 : ratLib.sk_float_sqrt 1 = 1 := by
  simpa using ratLib_sqrt_sq 1

theorem ratLib_sqrt_4 : ratLib.sk_float_sqrt 4 = 2 := by
  have := ratLib_sqrt_sq 2
  norm_num at this
  exact this

theorem ratLib_sqrt_9 : ratLib.sk_float_sqrt 9 = 3 := by
  have := ratLib_sqrt_sq 3
  norm_num at this
  exact this

theorem ratLib_sqrt_49 : ratLib.sk_float_sqrt 49 = 7 := by
  have := ratLib_sqrt_sq 7
  norm_num at this
  exact this

/-- The sum of squares of a non-zero vector is positive. -/
theorem sumsq_pos (p : SkPoint3D α) (hp : p ≠ ⟨0, 0, 0⟩) :
    0 < p.fX * p.fX + p.fY * p.fY + p.fZ * p.fZ := by
  obtain ⟨x, y, z⟩ := p
  have hne : ¬ (x = 0 ∧ y = 0 ∧ z = 0) := by
    rintro ⟨rfl, rfl, rfl⟩
    exact hp rfl
  by_contra hle
  have h0 : x * x + y * y + z * z = 0 :=
    le_antisymm (not_lt.1 hle)
      (add_nonneg (add_nonneg (mul_self_nonneg x) (mul_self_nonneg y)) (mul_self_nonneg z))
  have hx : x * x = 0 := by nlinarith [mul_self_nonneg x, mul_self_nonneg y, mul_self_nonneg z]
  have hy : y * y = 0 := by nlinarith [mul_self_nonneg x, mul_self_nonneg y, mul_self_nonneg z]
  have hz : z * z = 0 := by nlinarith [mul_self_nonneg x, mul_self_nonneg y, mul_self_nonneg z]
  exact hne ⟨mul_self_eq_zero.1 hx, mul_self_eq_zero.1 hy, mul_self_eq_zero.1 hz⟩

/-- What `normalize` returns and writes for a vector whose computed magnitude
is not zero. -/
theorem normalize_of_ne (L : ScalarLib α) (p : SkPoint3D α) (unit : SkUnit3D α)
    (h : L.sk_float_sqrt (p.fX * p.fX + p.fY * p.fY + p.fZ * p.fZ) ≠ 0) :
    p.normalize L unit =
      (L.sk_float_sqrt (p.fX * p.fX + p.fY * p.fY + p.fZ * p.fZ),
        { fX := p.fX * (1 / L.sk_float_sqrt (p.fX * p.fX + p.fY * p.fY + p.fZ * p.fZ)),
          fY := p.fY * (1 / L.sk_float_sqrt (p.fX * p.fX + p.fY * p.fY + p.fZ * p.fZ)),
          fZ := p.fZ * (1 / L.sk_float_sqrt (p.fX * p.fX + p.fY * p.fY + p.fZ * p.fZ)) }) := by
  simp [SkPoint3D.normalize, h]

/-- What `normalize` returns and writes for a vector whose computed magnitude
is zero: the output keeps its prior contents. -/
theorem normalize_of_eq (L : ScalarLib α) (p : SkPoint3D α) (unit : SkUnit3D α)
    (h : L.sk_float_sqrt (p.fX * p.fX + p.fY * p.fY + p.fZ * p.fZ) = 0) :
    p.normalize L unit = (0, unit) := by
  simp [SkPoint3D.normalize, h]

/-- Normalisation with a square root that is exact at the sum of squares. -/
theorem normalize_exact (L : ScalarLib α) (p : SkPoint3D α) (unit : SkUnit3D α)
    (hp : p ≠ ⟨0, 0, 0⟩)
    (hsq : L.sk_float_sqrt (p.fX * p.fX + p.fY * p.fY + p.fZ * p.fZ)
        * L.sk_float_sqrt (p.fX * p.fX + p.fY * p.fY + p.fZ * p.fZ)
      = p.fX * p.fX + p.fY * p.fY + p.fZ * p.fZ) :
    (p.normalize L unit).1 = L.sk_float_sqrt (p.fX * p.fX + p.fY * p.fY + p.fZ * p.fZ)
    ∧ (p.normalize L unit).1 ≠ 0
    ∧ (p.normalize L unit).2 =
        { fX := p.fX / (p.normalize L unit).1, fY := p.fY / (p.normalize L unit).1,
          fZ := p.fZ / (p.normalize L unit).1 }
    ∧ SkUnit3D.Dot (p.normalize L unit).2 (p.normalize L unit).2 = 1
    ∧ SkUnit3D.Dot (p.normalize L unit).2 p = (p.normalize L unit).1 := by
  have hpos := sumsq_pos p hp
  have hne : L.sk_float_sqrt (p.fX * p.fX + p.fY * p.fY + p.fZ * p.fZ) ≠ 0 := by
    intro h0
    rw [h0, mul_zero] at hsq
    exact absurd hsq.symm (ne_of_gt hpos)
  rw [normalize_of_ne L p unit hne]
  generalize L.sk_float_sqrt (p.fX * p.fX + p.fY * p.fY + p.fZ * p.fZ) = mag at hsq hne
  refine ⟨rfl, hne, ?_, ?_, ?_⟩
  · simp [div_eq_mul_inv]
  · simp only [SkUnit3D.Dot]
    field_simp
    linear_combination -hsq
  · simp only [SkUnit3D.Dot]
    field_simp
    linear_combination -hsq

/-- Over the reals with the real square root, `normalize` of a non-zero vector
returns the Euclidean length, which is positive, and writes the vector divided
by it, a vector of length one whose dot product with the original is the
length. -/
theorem normalize_real (L : ScalarLib ℝ) (hL : L.sk_float_sqrt = Real.sqrt) (p : SkPoint3D ℝ)
    (unit : SkUnit3D ℝ) (hp : p ≠ ⟨0, 0, 0⟩) :
    (p.normalize L unit).1 = Real.sqrt (p.fX * p.fX + p.fY * p.fY + p.fZ * p.fZ)
    ∧ 0 < (p.normalize L unit).1
    ∧ (p.normalize L unit).2 =
        { fX := p.fX / (p.normalize L unit).1, fY := p.fY / (p.normalize L unit).1,
          fZ := p.fZ / (p.normalize L unit).1 }
    ∧ Real.sqrt (SkUnit3D.Dot (p.normalize L unit).2 (p.normalize L unit).2) = 1
    ∧ SkUnit3D.Dot (p.normalize L unit).2 p = (p.normalize L unit).1 := by
  have hpos := sumsq_pos p hp
  have hsq : L.sk_float_sqrt (p.fX * p.fX + p.fY * p.fY + p.fZ * p.fZ)
        * L.sk_float_sqrt (p.fX * p.fX + p.fY * p.fY + p.fZ * p.fZ)
      = p.fX * p.fX + p.fY * p.fY + p.fZ * p.fZ := by
    rw [hL]
    exact Real.mul_self_sqrt (le_of_lt hpos)
  have h := normalize_exact L p unit hp hsq
  refine ⟨by rw [h.1, hL], ?_, h.2.2.1, ?_, h.2.2.2.2⟩
  · rw [h.1, hL]
    exact Real.sqrt_pos.2 hpos
  · rw [h.2.2.2.1, Real.sqrt_one]

/-- The real square root meets what the statements below ask of the library
square root: it is non-negative, exact at every sum of squares, and exact at
`0` and `1`. -/
theorem real_sqrt_exact (L : ScalarLib ℝ) (hL : L.sk_float_sqrt = Real.sqrt) (p : SkPoint3D ℝ) :
    0 ≤ L.sk_float_sqrt (SkUnit3D.Dot p p)
    ∧ L.sk_float_sqrt (SkUnit3D.Dot p p) * L.sk_float_sqrt (SkUnit3D.Dot p p) = SkUnit3D.Dot p p
    ∧ L.sk_float_sqrt 0 = 0 ∧ L.sk_float_sqrt 1 = 1 := by
  have hnn : 0 ≤ SkUnit3D.Dot p p :=
    add_nonneg (add_nonneg (mul_self_nonneg p.fX) (mul_self_nonneg p.fY)) (mul_self_nonneg p.fZ)
  rw [hL]
  exact ⟨Real.sqrt_nonneg _, Real.mul_self_sqrt hnn, Real.sqrt_zero, Real.sqrt_one⟩

/-- What `SkUnit3D::Cross` stores, against the vector cross product. -/
theorem Cross_eq_crossProduct_add (a b : SkUnit3D α) :
    SkUnit3D.Cross a b =
      { fX := (crossProduct a b).fX,
        fY := (crossProduct a b).fY + a.fX * (b.fZ - b.fY),
        fZ := (crossProduct a b).fZ } := by
  simp only [SkUnit3D.Cross, crossProduct, SkPoint3D.mk.injEq]
  refine ⟨trivial, ?_, trivial⟩
  ring

/-- The forward vector of a camera with non-zero axis, for a square root exact
at the squared length of the axis: the axis divided by its length, of unit
length. -/
theorem forwardVector_exact (L : ScalarLib α) (axis0 : SkUnit3D α) (c : SkCamera3D α)
    (haxis : c.fAxis ≠ ⟨0, 0, 0⟩)
    (h1 : L.sk_float_sqrt (SkUnit3D.Dot c.fAxis c.fAxis)
        * L.sk_float_sqrt (SkUnit3D.Dot c.fAxis c.fAxis) = SkUnit3D.Dot c.fAxis c.fAxis) :
    L.sk_float_sqrt (SkUnit3D.Dot c.fAxis c.fAxis) ≠ 0
    ∧ forwardVector L axis0 c =
        { fX := c.fAxis.fX / L.sk_float_sqrt (SkUnit3D.Dot c.fAxis c.fAxis),
          fY := c.fAxis.fY / L.sk_float_sqrt (SkUnit3D.Dot c.fAxis c.fAxis),
          fZ := c.fAxis.fZ / L.sk_float_sqrt (SkUnit3D.Dot c.fAxis c.fAxis) }
    ∧ SkUnit3D.Dot (forwardVector L axis0 c) (forwardVector L axis0 c) = 1 := by
  have h := normalize_exact L c.fAxis axis0 haxis h1
  refine ⟨?_, ?_, h.2.2.2.1⟩
  · have := h.2.1
    rw [h.1] at this
    exact this
  · have := h.2.2.1
    rw [h.1] at this
    exact this

/-- C13, evaluated at a failing input: for the camera looking along `+x` with
zenith `+y` the forward vector is `(1, 0, 0)` and the up vector `(0, 1, 0)`,
whose cross product is `(0, 0, 1)`; `SkUnit3D::Cross` stores `(0, -1, 1)`, which
is not orthogonal to the up vector, and `doUpdate` stores the row
`(0, -576, 576)` where `observer.x·f - observer.z·(f × u)` is `(0, 0, 576)`. -/
theorem doUpdate_sideCamera_rows :
    forwardVector ratLib zeroPoint sideCamera = { fX := 1, fY := 0, fZ := 0 }
    ∧ upVector ratLib zeroPoint sideCamera = { fX := 0, fY := 1, fZ := 0 }
    ∧ crossProduct (forwardVector ratLib zeroPoint sideCamera)
        (upVector ratLib zeroPoint sideCamera) = { fX := 0, fY := 0, fZ := 1 }
    ∧ rightVector ratLib zeroPoint sideCamera = { fX := 0, fY := -1, fZ := 1 }
    ∧ SkUnit3D.Dot (rightVector ratLib zeroPoint sideCamera)
        (upVector ratLib zeroPoint sideCamera) = -1
    ∧ orientationRow (sideCamera.doUpdate ratLib zeroPoint) 0
        = { fX := 0, fY := -576, fZ := 576 }
    ∧ subVector (scaleVector sideCamera.fObserver.fX (forwardVector ratLib zeroPoint sideCamera))
        (scaleVector sideCamera.fObserver.fZ
          (crossProduct (forwardVector ratLib zeroPoint sideCamera)
            (upVector ratLib zeroPoint sideCamera)))
        = { fX := 0, fY := 0, fZ := 576 } := by
  have hf : forwardVector ratLib zeroPoint sideCamera = { fX := 1, fY := 0, fZ := 0 } := by
    simp [forwardVector, SkPoint3D.normalize, sideCamera, ratLib_sqrt_1]
  have hu : upVector ratLib zeroPoint sideCamera = { fX := 0, fY := 1, fZ := 0 } := by
    simp only [upVector, orthogonalZenith, hf]
    simp [SkPoint3D.normalize, sideCamera, SkUnit3D.Dot, subVector, scaleVector, ratLib_sqrt_1]
  have hr : rightVector ratLib zeroPoint sideCamera = { fX := 0, fY := -1, fZ := 1 } := by
    simp [rightVector, hf, hu, SkUnit3D.Cross]
  refine ⟨hf, hu, ?_, hr, ?_, ?_, ?_⟩
  · simp [hf, hu, crossProduct]
  · simp [hr, hu, SkUnit3D.Dot]
  · rw [(orientationRow_eq _).1, doUpdate_orientation, hf, hr]
    simp [sideCamera]
  · rw [hf, hu]
    simp [crossProduct, subVector, scaleVector, sideCamera]

/-- C14: normalisation.  For every non-zero vector `p` and a square root that
is exact and non-negative at `x² + y² + z²`, `normalize` returns
`mag = sqrt(x² + y² + z²)`, which is positive, and writes `unit = p / mag`;
`unit · unit = 1` and `unit · p = mag`, so the dot product with the original is
not negative. -/
theorem normalize_unit (L : ScalarLib α) (p : SkPoint3D α) (unit : SkUnit3D α)
    (hp : p ≠ ⟨0, 0, 0⟩)
    (hnn : 0 ≤ L.sk_float_sqrt (p.fX * p.fX + p.fY * p.fY + p.fZ * p.fZ))
    (hsq : L.sk_float_sqrt (p.fX * p.fX + p.fY * p.fY + p.fZ * p.fZ)
        * L.sk_float_sqrt (p.fX * p.fX + p.fY * p.fY + p.fZ * p.fZ)
      = p.fX * p.fX + p.fY * p.fY + p.fZ * p.fZ) :
    (p.normalize L unit).1 = L.sk_float_sqrt (p.fX * p.fX + p.fY * p.fY + p.fZ * p.fZ)
    ∧ 0 < (p.normalize L unit).1
    ∧ (p.normalize L unit).2 =
        { fX := p.fX / (p.normalize L unit).1, fY := p.fY / (p.normalize L unit).1,
          fZ := p.fZ / (p.normalize L unit).1 }
    ∧ SkUnit3D.Dot (p.normalize L unit).2 (p.normalize L unit).2 = 1
    ∧ SkUnit3D.Dot (p.normalize L unit).2 p = (p.normalize L unit).1
    ∧ 0 ≤ SkUnit3D.Dot (p.normalize L unit).2 p := by
  have h := normalize_exact L p unit hp hsq
  have hpos : 0 < (p.normalize L unit).1 := by
    rw [h.1]
    exact lt_of_le_of_ne hnn (by rw [← h.1]; exact h.2.1.symm)
  exact ⟨h.1, hpos, h.2.2.1, h.2.2.2.1, h.2.2.2.2, by rw [h.2.2.2.2]; exact le_of_lt hpos⟩

/-- Witness of C14: the vector `(2, 3, 6)`, of length `7`. -/
theorem normalize_unit_witness :
    (SkPoint3D.normalize ratLib ⟨2, 3, 6⟩ zeroPoint).1 = 7
    ∧ (SkPoint3D.normalize ratLib ⟨2, 3, 6⟩ zeroPoint).2 = ⟨2 / 7, 3 / 7, 6 / 7⟩
    ∧ SkUnit3D.Dot (SkPoint3D.normalize ratLib ⟨2, 3, 6⟩ zeroPoint).2
        (SkPoint3D.normalize ratLib ⟨2, 3, 6⟩ zeroPoint).2 = 1
    ∧ SkUnit3D.Dot (SkPoint3D.normalize ratLib ⟨2, 3, 6⟩ zeroPoint).2 ⟨2, 3, 6⟩ = 7 := by
  have e : (2 : ℚ) * 2 + 3 * 3 + 6 * 6 = 49 := by norm_num
  have h := normalize_unit ratLib ⟨2, 3, 6⟩ zeroPoint (by simp)
    (by simp only [e, ratLib_sqrt_49]; norm_num)
    (by simp only [e, ratLib_sqrt_49]; norm_num)
  have h1 : (SkPoint3D.normalize ratLib ⟨2, 3, 6⟩ zeroPoint).1 = 7 := by
    rw [h.1]
    simp only [e, ratLib_sqrt_49]
  refine ⟨h1, ?_, h.2.2.2.1, ?_⟩
  · rw [h.2.2.1, h1]
  · rw [h.2.2.2.2.1, h1]

/-- A zenith whose orthogonalised vector vanishes is parallel to the axis. -/
theorem parallel_of_orthogonalZenith_zero (L : ScalarLib α) (axis0 : SkUnit3D α)
    (c : SkCamera3D α) (haxis : c.fAxis ≠ ⟨0, 0, 0⟩)
    (h1 : L.sk_float_sqrt (SkUnit3D.Dot c.fAxis c.fAxis)
        * L.sk_float_sqrt (SkUnit3D.Dot c.fAxis c.fAxis) = SkUnit3D.Dot c.fAxis c.fAxis)
    (hz : orthogonalZenith L axis0 c = ⟨0, 0, 0⟩) :
    parallelTo c.fAxis c.fZenith := by
  have hf := forwardVector_exact L axis0 c haxis h1
  refine ⟨SkUnit3D.Dot c.fZenith (forwardVector L axis0 c)
    / L.sk_float_sqrt (SkUnit3D.Dot c.fAxis c.fAxis), ?_⟩
  simp only [orthogonalZenith, subVector, scaleVector, SkPoint3D.mk.injEq] at hz
  generalize SkUnit3D.Dot c.fZenith (forwardVector L axis0 c) = d at hz ⊢
  rw [hf.2.1] at hz
  generalize L.sk_float_sqrt (SkUnit3D.Dot c.fAxis c.fAxis) = mag at hz hf ⊢
  rcases hzen : c.fZenith with ⟨zx, zy, zz⟩
  rw [hzen] at hz
  simp only [scaleVector, SkPoint3D.mk.injEq] at hz ⊢
  refine ⟨?_, ?_, ?_⟩
  · have := hz.1
    field_simp at this ⊢
    linear_combination this
  · have := hz.2.1
    field_simp at this ⊢
    linear_combination this
  · have := hz.2.2
    field_simp at this ⊢
    linear_combination this

/-- C16: the Gram-Schmidt result is orthonormal.  For every camera whose axis
is not zero and whose zenith is not a multiple of the axis, with a square root
exact at the two sums of squares `doUpdate` passes to it, the forward vector
`f` and the up vector `u` satisfy `f·f = 1`, `u·u = 1` and `u·f = 0`, where
`z' = zenith - (zenith·f)·f`, `z'` is not zero and `u = z' / |z'|`. -/
theorem gramSchmidt_orthonormal (L : ScalarLib α) (axis0 : SkUnit3D α) (c : SkCamera3D α)
    (haxis : c.fAxis ≠ ⟨0, 0, 0⟩) (hpar : ¬ parallelTo c.fAxis c.fZenith)
    (h1 : L.sk_float_sqrt (SkUnit3D.Dot c.fAxis c.fAxis)
        * L.sk_float_sqrt (SkUnit3D.Dot c.fAxis c.fAxis) = SkUnit3D.Dot c.fAxis c.fAxis)
    (h2 : L.sk_float_sqrt
          (SkUnit3D.Dot (orthogonalZenith L axis0 c) (orthogonalZenith L axis0 c))
        * L.sk_float_sqrt
          (SkUnit3D.Dot (orthogonalZenith L axis0 c) (orthogonalZenith L axis0 c))
      = SkUnit3D.Dot (orthogonalZenith L axis0 c) (orthogonalZenith L axis0 c)) :
    SkUnit3D.Dot (forwardVector L axis0 c) (forwardVector L axis0 c) = 1
    ∧ SkUnit3D.Dot (upVector L axis0 c) (upVector L axis0 c) = 1
    ∧ SkUnit3D.Dot (upVector L axis0 c) (forwardVector L axis0 c) = 0
    ∧ orthogonalZenith L axis0 c
        = subVector c.fZenith
            (scaleVector (SkUnit3D.Dot c.fZenith (forwardVector L axis0 c))
              (forwardVector L axis0 c))
    ∧ orthogonalZenith L axis0 c ≠ ⟨0, 0, 0⟩
    ∧ upVector L axis0 c =
        { fX := (orthogonalZenith L axis0 c).fX / L.sk_float_sqrt
            (SkUnit3D.Dot (orthogonalZenith L axis0 c) (orthogonalZenith L axis0 c)),
          fY := (orthogonalZenith L axis0 c).fY / L.sk_float_sqrt
            (SkUnit3D.Dot (orthogonalZenith L axis0 c) (orthogonalZenith L axis0 c)),
          fZ := (orthogonalZenith L axis0 c).fZ / L.sk_float_sqrt
            (SkUnit3D.Dot (orthogonalZenith L axis0 c) (orthogonalZenith L axis0 c)) } := by
  have hf := forwardVector_exact L axis0 c haxis h1
  have hzne : orthogonalZenith L axis0 c ≠ ⟨0, 0, 0⟩ := fun hz =>
    hpar (parallel_of_orthogonalZenith_zero L axis0 c haxis h1 hz)
  have hu := normalize_exact L (orthogonalZenith L axis0 c) (orthogonalZenith L axis0 c) hzne h2
  have hzf : SkUnit3D.Dot (orthogonalZenith L axis0 c) (forwardVector L axis0 c) = 0 := by
    have hff := hf.2.2
    simp only [orthogonalZenith, subVector, scaleVector, SkUnit3D.Dot] at hff ⊢
    linear_combination
      (-(c.fZenith.fX * (forwardVector L axis0 c).fX + c.fZenith.fY * (forwardVector L axis0 c).fY
        + c.fZenith.fZ * (forwardVector L axis0 c).fZ)) * hff
  have hueq : upVector L axis0 c =
        { fX := (orthogonalZenith L axis0 c).fX / L.sk_float_sqrt
            (SkUnit3D.Dot (orthogonalZenith L axis0 c) (orthogonalZenith L axis0 c)),
          fY := (orthogonalZenith L axis0 c).fY / L.sk_float_sqrt
            (SkUnit3D.Dot (orthogonalZenith L axis0 c) (orthogonalZenith L axis0 c)),
          fZ := (orthogonalZenith L axis0 c).fZ / L.sk_float_sqrt
            (SkUnit3D.Dot (orthogonalZenith L axis0 c) (orthogonalZenith L axis0 c)) } := by
    have := hu.2.2.1
    rw [hu.1] at this
    exact this
  refine ⟨hf.2.2, hu.2.2.2.1, ?_, rfl, hzne, hueq⟩
  rw [hueq]
  simp only [SkUnit3D.Dot] at hzf ⊢
  rw [div_mul_eq_mul_div, div_mul_eq_mul_div, div_mul_eq_mul_div, ← add_div, ← add_div, hzf,
    zero_div]

/-- C17, amended: a zenith parallel to the axis, over exact scalars.  In exact
arithmetic, for every camera whose zenith is `k` times its non-zero axis, with
a square root exact at the squared length of the axis and at `0`, the
orthogonalised zenith is the zero vector, `normalize` reports magnitude `0`
for it and leaves its output as it was, the up and right vectors are
`(0, 0, 0)`, and the descriptor `doUpdate` stores has rows `observer.x·f`,
`observer.y·f` and `f`. -/
theorem doUpdate_parallel_zenith (L : ScalarLib α) (axis0 : SkUnit3D α) (c : SkCamera3D α)
    (k : α) (haxis : c.fAxis ≠ ⟨0, 0, 0⟩) (hz : c.fZenith = scaleVector k c.fAxis)
    (h1 : L.sk_float_sqrt (SkUnit3D.Dot c.fAxis c.fAxis)
        * L.sk_float_sqrt (SkUnit3D.Dot c.fAxis c.fAxis) = SkUnit3D.Dot c.fAxis c.fAxis)
    (h0 : L.sk_float_sqrt 0 = 0) :
    orthogonalZenith L axis0 c = ⟨0, 0, 0⟩
    ∧ (∀ unit : SkUnit3D α, (orthogonalZenith L axis0 c).normalize L unit = (0, unit))
    ∧ upVector L axis0 c = ⟨0, 0, 0⟩
    ∧ rightVector L axis0 c = ⟨0, 0, 0⟩
    ∧ orientationRow (c.doUpdate L axis0) 0 = scaleVector c.fObserver.fX (forwardVector L axis0 c)
    ∧ orientationRow (c.doUpdate L axis0) 1 = scaleVector c.fObserver.fY (forwardVector L axis0 c)
    ∧ orientationRow (c.doUpdate L axis0) 2 = forwardVector L axis0 c := by
  have hf := forwardVector_exact L axis0 c haxis h1
  have hzero : orthogonalZenith L axis0 c = ⟨0, 0, 0⟩ := by
    simp only [orthogonalZenith, subVector, scaleVector, SkUnit3D.Dot, hz, hf.2.1,
      SkPoint3D.mk.injEq]
    have hne := hf.1
    simp only [SkUnit3D.Dot] at h1 hne
    generalize L.sk_float_sqrt (c.fAxis.fX * c.fAxis.fX + c.fAxis.fY * c.fAxis.fY
      + c.fAxis.fZ * c.fAxis.fZ) = mag at h1 hne ⊢
    refine ⟨?_, ?_, ?_⟩
    · field_simp
      linear_combination (k * c.fAxis.fX) * h1
    · field_simp
      linear_combination (k * c.fAxis.fY) * h1
    · field_simp
      linear_combination (k * c.fAxis.fZ) * h1
  have hnorm : ∀ unit : SkUnit3D α,
      (orthogonalZenith L axis0 c).normalize L unit = (0, unit) := by
    intro unit
    rw [hzero]
    exact normalize_of_eq L ⟨0, 0, 0⟩ unit (by simpa using h0)
  have hup : upVector L axis0 c = ⟨0, 0, 0⟩ := by
    simp only [upVector, hnorm]
    exact hzero
  have hright : rightVector L axis0 c = ⟨0, 0, 0⟩ := by
    simp [rightVector, hup, SkUnit3D.Cross]
  refine ⟨hzero, hnorm, hup, hright, ?_, ?_, ?_⟩
  · rw [(orientationRow_eq _).1, doUpdate_orientation, hright]
    simp [scaleVector]
  · rw [(orientationRow_eq _).2.1, doUpdate_orientation, hup]
    simp [scaleVector]
  · rw [(orientationRow_eq _).2.2, doUpdate_orientation]

/-- Witness of C16: axis `(0, 0, 2)` and zenith `(0, 3, 4)` give the forward
vector `(0, 0, 1)`, the orthogonalised zenith `(0, 3, 0)` and the up vector
`(0, 1, 0)`. -/
theorem gramSchmidt_orthonormal_witness :
    forwardVector ratLib zeroPoint tiltCamera = ⟨0, 0, 1⟩
    ∧ orthogonalZenith ratLib zeroPoint tiltCamera = ⟨0, 3, 0⟩
    ∧ upVector ratLib zeroPoint tiltCamera = ⟨0, 1, 0⟩
    ∧ SkUnit3D.Dot (forwardVector ratLib zeroPoint tiltCamera)
        (forwardVector ratLib zeroPoint tiltCamera) = 1
    ∧ SkUnit3D.Dot (upVector ratLib zeroPoint tiltCamera)
        (upVector ratLib zeroPoint tiltCamera) = 1
    ∧ SkUnit3D.Dot (upVector ratLib zeroPoint tiltCamera)
        (forwardVector ratLib zeroPoint tiltCamera) = 0 := by
  have e1 : SkUnit3D.Dot tiltCamera.fAxis tiltCamera.fAxis = 4 := by
    norm_num [SkUnit3D.Dot, tiltCamera]
  have hf : forwardVector ratLib zeroPoint tiltCamera = ⟨0, 0, 1⟩ := by
    have e : (0 : ℚ) * 0 + 0 * 0 + 2 * 2 = 4 := by norm_num
    simp only [forwardVector, SkPoint3D.normalize, tiltCamera, e, ratLib_sqrt_4]
    norm_num
  have hz : orthogonalZenith ratLib zeroPoint tiltCamera = ⟨0, 3, 0⟩ := by
    simp only [orthogonalZenith, hf]
    norm_num [subVector, scaleVector, SkUnit3D.Dot, tiltCamera]
  have e2 : SkUnit3D.Dot (orthogonalZenith ratLib zeroPoint tiltCamera)
      (orthogonalZenith ratLib zeroPoint tiltCamera) = 9 := by
    rw [hz]
    norm_num [SkUnit3D.Dot]
  have h := gramSchmidt_orthonormal ratLib zeroPoint tiltCamera
    (by simp [tiltCamera])
    (by
      rintro ⟨k, hk⟩
      simp [tiltCamera, scaleVector] at hk)
    (by rw [e1, ratLib_sqrt_4]; norm_num)
    (by rw [e2, ratLib_sqrt_9]; norm_num)
  refine ⟨hf, hz, ?_, h.1, h.2.1, h.2.2.1⟩
  rw [h.2.2.2.2.2, e2, ratLib_sqrt_9, hz]
  norm_num

/-- Witness of C17: axis `(0, 0, 2)`, zenith three times the axis and observer
`(1, 2, 3)` give the rows `(0, 0, 1)`, `(0, 0, 2)` and `(0, 0, 1)`. -/
theorem doUpdate_parallel_zenith_witness :
    parallelCamera.fZenith = scaleVector 3 parallelCamera.fAxis
    ∧ upVector ratLib zeroPoint parallelCamera = ⟨0, 0, 0⟩
    ∧ rightVector ratLib zeroPoint parallelCamera = ⟨0, 0, 0⟩
    ∧ orientationRow (parallelCamera.doUpdate ratLib zeroPoint) 0 = ⟨0, 0, 1⟩
    ∧ orientationRow (parallelCamera.doUpdate ratLib zeroPoint) 1 = ⟨0, 0, 2⟩
    ∧ orientationRow (parallelCamera.doUpdate ratLib zeroPoint) 2 = ⟨0, 0, 1⟩ := by
  have e1 : SkUnit3D.Dot parallelCamera.fAxis parallelCamera.fAxis = 4 := by
    norm_num [SkUnit3D.Dot, parallelCamera]
  have hk : parallelCamera.fZenith = scaleVector 3 parallelCamera.fAxis := by
    norm_num [parallelCamera, scaleVector]
  have hf : forwardVector ratLib zeroPoint parallelCamera = ⟨0, 0, 1⟩ := by
    have e : (0 : ℚ) * 0 + 0 * 0 + 2 * 2 = 4 := by norm_num
    simp only [forwardVector, SkPoint3D.normalize, parallelCamera, e, ratLib_sqrt_4]
    norm_num
  have h := doUpdate_parallel_zenith ratLib zeroPoint parallelCamera 3
    (by simp [parallelCamera]) hk (by rw [e1, ratLib_sqrt_4]; norm_num) ratLib_sqrt_0
  refine ⟨hk, h.2.2.1, h.2.2.2.1, ?_, ?_, ?_⟩
  · rw [h.2.2.2.2.1, hf]
    norm_num [scaleVector, parallelCamera]
  · rw [h.2.2.2.2.2.1, hf]
    norm_num [scaleVector, parallelCamera]
  · rw [h.2.2.2.2.2.2, hf]

/-- The default camera seen by the patch `u = (1, 2, 3)`, `v = (4, 5, 6)` at
the origin: the denominator is `576`. -/
theorem denom_skewPatch :
    ((SkCamera3D.new zeroCamera).refresh ratLib zeroPoint).denom skewPatch = 576 := by
  rw [refresh_new ratLib ratLib_sqrt_1]
  norm_num [SkCamera3D.denom, SkUnit3D.Dot, SkUnit3D.ofPtr, m2_ptr_apply, m2_flat_6, m2_flat_7,
    m2_flat_8, skewPatch, zeroPoint]

/-- Witness of C12: the default camera and the patch `u = (1, 2, 3)`,
`v = (4, 5, 6)` at the origin. -/
theorem patchToMatrix_layout_witness :
    ((SkCamera3D.new zeroCamera).refresh ratLib zeroPoint).denom skewPatch ≠ 0
    ∧ ((SkCamera3D.new zeroCamera).patchToMatrix ratLib zeroPoint skewPatch blankMatrix).2 =
        { scaleX := some 1, skewY := some (-2), persp0 := some (1 / 192),
          skewX := some 4, scaleY := some (-5), persp1 := some (1 / 96),
          transX := some 0, transY := some 0, persp2 := some 1 } := by
  have hd : ((SkCamera3D.new zeroCamera).refresh ratLib zeroPoint).denom skewPatch ≠ 0 := by
    rw [denom_skewPatch]
    norm_num
  refine ⟨hd, ?_⟩
  rw [(patchToMatrix_layout ratLib zeroPoint (SkCamera3D.new zeroCamera) skewPatch
    blankMatrix).2.2 hd, denom_skewPatch, refresh_new ratLib ratLib_sqrt_1]
  norm_num [orientationRow, originDiff, subVector, SkUnit3D.Dot, SkUnit3D.ofPtr, m2_ptr_apply,
    m2_flat_0, m2_flat_1, m2_flat_2, m2_flat_3, m2_flat_4, m2_flat_5, m2_flat_6, m2_flat_7,
    m2_flat_8, skewPatch, zeroPoint]

/-- Witness of C19: the same camera and patch at the plane point
`(s, t) = (2, 3)`, which is the space point `(14, 19, 24)`. -/
theorem patchToMatrix_perspective_witness :
    ((SkCamera3D.new zeroCamera).refresh ratLib zeroPoint).denom skewPatch ≠ 0
    ∧ mapHomogeneous
        ((SkCamera3D.new zeroCamera).patchToMatrix ratLib zeroPoint skewPatch blankMatrix).2 2 3
      = some (14, -19, 25 / 24) := by
  have hd : ((SkCamera3D.new zeroCamera).refresh ratLib zeroPoint).denom skewPatch ≠ 0 := by
    rw [denom_skewPatch]
    norm_num
  refine ⟨hd, ?_⟩
  rw [patchToMatrix_perspective ratLib zeroPoint (SkCamera3D.new zeroCamera) skewPatch
    blankMatrix 2 3 hd, denom_skewPatch, refresh_new ratLib ratLib_sqrt_1]
  norm_num [orientationRow, subVector, SkUnit3D.Dot, SkUnit3D.ofPtr, m2_ptr_apply,
    m2_flat_0, m2_flat_1, m2_flat_2, m2_flat_3, m2_flat_4, m2_flat_5, m2_flat_6, m2_flat_7,
    m2_flat_8, skewPatch, zeroPoint]

/-! ## The camera cache -/

/-- The descriptor `doUpdate` derives does not depend on the cache members. -/
theorem doUpdate_cache_free (L : ScalarLib α) (axis0 : SkUnit3D α) (c : SkCamera3D α)
    (o : SkMatrix α) (b : Bool) :
    (SkCamera3D.doUpdate L axis0 { c with fOrientation := o, fNeedToUpdate := b }).fOrientation
      = (c.doUpdate L axis0).fOrientation := by
  rw [doUpdate_orientation, doUpdate_orientation]
  rfl

/-- The camera `refresh` leaves: flag cleared, descriptor recomputed exactly
when the flag was set, the four points untouched. -/
theorem refresh_eq (L : ScalarLib α) (axis0 : SkUnit3D α) (c : SkCamera3D α) :
    c.refresh L axis0 =
      { c with
        fOrientation := if c.fNeedToUpdate = true then (c.doUpdate L axis0).fOrientation
          else c.fOrientation,
        fNeedToUpdate := c.fNeedToUpdate && false } := by
  obtain ⟨loc, ax, zen, obs, o, b⟩ := c
  cases b
  · simp [SkCamera3D.refresh]
  · simp [SkCamera3D.refresh, SkCamera3D.doUpdate]

/-- The flag is cleared after `refresh`. -/
theorem refresh_flag (L : ScalarLib α) (axis0 : SkUnit3D α) (c : SkCamera3D α) :
    (c.refresh L axis0).fNeedToUpdate = false := by
  rw [refresh_eq]
  simp

/-- The descriptor after `refresh`. -/
theorem refresh_orientation (L : ScalarLib α) (axis0 : SkUnit3D α) (c : SkCamera3D α) :
    (c.refresh L axis0).fOrientation
      = (if c.fNeedToUpdate = true then (c.doUpdate L axis0).fOrientation
          else c.fOrientation) := by
  rw [refresh_eq]

/-- The four points after `refresh`. -/
theorem refresh_points (L : ScalarLib α) (axis0 : SkUnit3D α) (c : SkCamera3D α) :
    (c.refresh L axis0).fLocation = c.fLocation ∧ (c.refresh L axis0).fAxis = c.fAxis
    ∧ (c.refresh L axis0).fZenith = c.fZenith ∧ (c.refresh L axis0).fObserver = c.fObserver := by
  rw [refresh_eq]
  exact ⟨rfl, rfl, rfl, rfl⟩

/-- A camera whose flag is cleared is left as it is by `refresh`. -/
theorem refresh_clean (L : ScalarLib α) (axis0 : SkUnit3D α) (c : SkCamera3D α)
    (h : c.fNeedToUpdate = false) : c.refresh L axis0 = c := by
  simp [SkCamera3D.refresh, h]

/-- `refresh` preserves cache coherence. -/
theorem refresh_coherent (L : ScalarLib α) (axis0 : SkUnit3D α) (c : SkCamera3D α)
    (hc : cacheCoherent L axis0 c) : cacheCoherent L axis0 (c.refresh L axis0) := by
  by_cases hb : c.fNeedToUpdate = true
  · right
    rw [refresh_eq]
    simp only [hb, if_true]
    exact (doUpdate_cache_free L axis0 c _ _).symm
  · have hb1 : c.fNeedToUpdate = false := by simpa using hb
    rw [refresh_clean L axis0 c hb1]
    exact hc

/-- C15: camera cache coherence.  The predicate "the flag is set, or the
stored descriptor is the one `doUpdate` derives from the current axis, zenith
and observer" holds after construction, after `reset` and after `update`, and
`patchToMatrix` preserves it; `patchToMatrix` leaves the flag cleared, stores
the recomputed descriptor when the flag was set and keeps the stored one
otherwise, and leaves the four points untouched; called again with the same
patch it leaves the camera as it is and writes the same matrix. -/
theorem camera_cache_coherent (L : ScalarLib α) (axis0 axis1 : SkUnit3D α)
    (c uninit : SkCamera3D α) (quilt : SkPatch3D α) (m m1 : SkMatrix (Option α)) :
    cacheCoherent L axis0 (SkCamera3D.new uninit)
    ∧ cacheCoherent L axis0 c.reset
    ∧ cacheCoherent L axis0 c.update
    ∧ (cacheCoherent L axis0 c → cacheCoherent L axis0 (c.patchToMatrix L axis0 quilt m).1)
    ∧ (c.patchToMatrix L axis0 quilt m).1.fNeedToUpdate = false
    ∧ (c.patchToMatrix L axis0 quilt m).1.fOrientation
        = (if c.fNeedToUpdate = true then (c.doUpdate L axis0).fOrientation else c.fOrientation)
    ∧ (c.patchToMatrix L axis0 quilt m).1.fLocation = c.fLocation
    ∧ (c.patchToMatrix L axis0 quilt m).1.fAxis = c.fAxis
    ∧ (c.patchToMatrix L axis0 quilt m).1.fZenith = c.fZenith
    ∧ (c.patchToMatrix L axis0 quilt m).1.fObserver = c.fObserver
    ∧ SkCamera3D.patchToMatrix L axis1 (c.patchToMatrix L axis0 quilt m).1 quilt m1
        = c.patchToMatrix L axis0 quilt m := by
  have h1 := (patchToMatrix_eq L axis0 c quilt m).1
  have hre : SkCamera3D.refresh L axis1 (c.refresh L axis0) = c.refresh L axis0 :=
    refresh_clean L axis1 _ (refresh_flag L axis0 c)
  have hp := refresh_points L axis0 c
  refine ⟨Or.inl rfl, Or.inl rfl, Or.inl rfl, ?_, ?_, ?_, ?_, ?_, ?_, ?_, ?_⟩
  · intro hc
    rw [h1]
    exact refresh_coherent L axis0 c hc
  · rw [h1]
    exact refresh_flag L axis0 c
  · rw [h1]
    exact refresh_orientation L axis0 c
  · rw [h1]
    exact hp.1
  · rw [h1]
    exact hp.2.1
  · rw [h1]
    exact hp.2.2.1
  · rw [h1]
    exact hp.2.2.2
  · apply Prod.ext
    · rw [(patchToMatrix_eq L axis1 _ quilt m1).1, h1, hre]
    · rw [(patchToMatrix_eq L axis1 _ quilt m1).2, (patchToMatrix_eq L axis0 c quilt m).2, h1, hre]

/-- Witness of C15: the default camera after one projection, whose flag is
cleared and whose descriptor is the derived one. -/
theorem camera_cache_coherent_witness :
    ((SkCamera3D.new zeroCamera).patchToMatrix ratLib zeroPoint skewPatch blankMatrix).1.fNeedToUpdate
      = false
    ∧ cacheCoherent ratLib zeroPoint
        ((SkCamera3D.new zeroCamera).patchToMatrix ratLib zeroPoint skewPatch blankMatrix).1
    ∧ cacheCoherent ratLib zeroPoint
        (SkCamera3D.patchToMatrix ratLib zeroPoint
          ((SkCamera3D.new zeroCamera).patchToMatrix ratLib zeroPoint skewPatch blankMatrix).1
          focalPatch blankMatrix).1 :=
  have h0 := camera_cache_coherent ratLib zeroPoint zeroPoint (SkCamera3D.new zeroCamera)
    zeroCamera skewPatch blankMatrix blankMatrix
  have hc := h0.2.2.2.1 h0.1
  ⟨h0.2.2.2.2.1, hc,
    (camera_cache_coherent ratLib zeroPoint zeroPoint
      ((SkCamera3D.new zeroCamera).patchToMatrix ratLib zeroPoint skewPatch blankMatrix).1
      zeroCamera focalPatch blankMatrix blankMatrix).2.2.2.1 hc⟩

/-! ## Rotation-only transforms -/

/-- The linear block of a concatenation is the product of the linear blocks. -/
theorem linearBlock_setConcat (a b : SkMatrix3D α) :
    linearBlock (SkMatrix3D.setConcat a b) = linearBlock a * linearBlock b := by
  rw [setConcat_eq]
  ext i j
  fin_cases i <;> fin_cases j <;>
    simp [linearBlock, Matrix.mul_apply, Fin.sum_univ_three]

/-- `preTranslate` keeps the linear block. -/
theorem linearBlock_preTranslate (m : SkMatrix3D α) (x y z : α) :
    linearBlock (m.preTranslate x y z) = linearBlock m := by
  simp [linearBlock, preTranslate_eq]

/-- The three rotation blocks the source writes are orthogonal when the
library sine and cosine lie on the unit circle. -/
theorem rotation_blocks_orthogonal (L : ScalarLib α) (tmp : SkMatrix3D α) (deg : α)
    (h : (L.SkScalarSinCos (L.SkDegreesToRadians deg)).1 ^ 2
      + (L.SkScalarSinCos (L.SkDegreesToRadians deg)).2 ^ 2 = 1) :
    linearBlock (SkMatrix3D.setRotateX L tmp deg)
        * (linearBlock (SkMatrix3D.setRotateX L tmp deg)).transpose = 1
    ∧ linearBlock (SkMatrix3D.setRotateY L tmp deg)
        * (linearBlock (SkMatrix3D.setRotateY L tmp deg)).transpose = 1
    ∧ linearBlock (SkMatrix3D.setRotateZ L tmp deg)
        * (linearBlock (SkMatrix3D.setRotateZ L tmp deg)).transpose = 1 := by
  rw [setRotateX_eq, setRotateY_eq, setRotateZ_eq]
  generalize (L.SkScalarSinCos (L.SkDegreesToRadians deg)).1 = s at h
  generalize (L.SkScalarSinCos (L.SkDegreesToRadians deg)).2 = c at h
  have h1 : c * c + s * s = 1 := by linear_combination h
  have h2 : s * s + c * c = 1 := by linear_combination h
  refine ⟨?_, ?_, ?_⟩ <;>
  · ext i j
    simp only [Matrix.mul_apply, Matrix.transpose_apply, Fin.sum_univ_three]
    fin_cases i <;> fin_cases j <;>
      simp [linearBlock, Matrix.vecHead, Matrix.vecTail, h1, h2, mul_comm]

/-- One call keeps the linear block orthogonal. -/
theorem apply_orthogonal (L : ScalarLib α) (tmp : SkMatrix3D α)
    (hunit : ∀ t : α, (L.SkScalarSinCos t).1 ^ 2 + (L.SkScalarSinCos t).2 ^ 2 = 1)
    (m : SkMatrix3D α) (op : MatrixOp α)
    (hm : linearBlock m * (linearBlock m).transpose = 1) :
    linearBlock (op.apply L tmp m) * (linearBlock (op.apply L tmp m)).transpose = 1 := by
  have step : ∀ r : SkMatrix3D α, linearBlock r * (linearBlock r).transpose = 1 →
      linearBlock (SkMatrix3D.setConcat m r)
        * (linearBlock (SkMatrix3D.setConcat m r)).transpose = 1 := by
    intro r hr
    rw [linearBlock_setConcat, Matrix.transpose_mul, Matrix.mul_assoc,
      ← Matrix.mul_assoc (linearBlock r), hr, Matrix.one_mul, hm]
  cases op with
  | preRotateX deg =>
    exact step _ (rotation_blocks_orthogonal L tmp deg (hunit _)).1
  | preRotateY deg =>
    exact step _ (rotation_blocks_orthogonal L tmp deg (hunit _)).2.1
  | preRotateZ deg =>
    exact step _ (rotation_blocks_orthogonal L tmp deg (hunit _)).2.2
  | preTranslate x y z =>
    show linearBlock (m.preTranslate x y z) * (linearBlock (m.preTranslate x y z)).transpose = 1
    rw [linearBlock_preTranslate]
    exact hm

/-- A sequence of calls keeps the linear block orthogonal. -/
theorem runMatrixOps_orthogonal (L : ScalarLib α) (tmp : SkMatrix3D α)
    (hunit : ∀ t : α, (L.SkScalarSinCos t).1 ^ 2 + (L.SkScalarSinCos t).2 ^ 2 = 1) :
    ∀ (ops : List (MatrixOp α)) (m : SkMatrix3D α),
      linearBlock m * (linearBlock m).transpose = 1 →
      linearBlock (runMatrixOps L tmp m ops)
        * (linearBlock (runMatrixOps L tmp m ops)).transpose = 1 := by
  intro ops
  induction ops with
  | nil => intro m hm; exact hm
  | cons op ops ih =>
    intro m hm
    exact ih _ (apply_orthogonal L tmp hunit m op hm)

/-- A transform with orthogonal linear block carries vectors without changing
their dot products. -/
theorem mapVector_dot_of_orthogonal (m : SkMatrix3D α)
    (hm : linearBlock m * (linearBlock m).transpose = 1) (u v : SkVector3D α) :
    SkUnit3D.Dot (m.mapVector u) (m.mapVector v) = SkUnit3D.Dot u v := by
  have ht : (linearBlock m).transpose * linearBlock m = 1 := Matrix.mul_eq_one_comm.1 hm
  have e : ∀ i j : Fin 3, ((linearBlock m).transpose * linearBlock m) i j
      = (1 : Matrix (Fin 3) (Fin 3) α) i j := fun i j => by rw [ht]
  have e00 := e 0 0
  have e01 := e 0 1
  have e02 := e 0 2
  have e11 := e 1 1
  have e12 := e 1 2
  have e22 := e 2 2
  simp only [Matrix.mul_apply, Matrix.transpose_apply, Fin.sum_univ_three] at e00 e01 e02 e11 e12 e22
  simp [linearBlock, Matrix.vecHead, Matrix.vecTail] at e00 e01 e02 e11 e12 e22
  simp only [mapVector_eq, SkUnit3D.Dot]
  linear_combination (u.fX * v.fX) * e00 + (u.fX * v.fY + u.fY * v.fX) * e01
    + (u.fX * v.fZ + u.fZ * v.fX) * e02 + (u.fY * v.fY) * e11
    + (u.fY * v.fZ + u.fZ * v.fY) * e12 + (u.fZ * v.fZ) * e22

/-- C18: rotation-only transforms are orthogonal.  When the library sine and
cosine satisfy `sin² + cos² = 1`, every matrix reached from `reset()` by a
finite sequence of `preRotateX`, `preRotateY`, `preRotateZ` and `preTranslate`
calls has a linear block `B` with `B·Bᵀ = I`, and `mapVector` by it preserves
dot products, hence squared lengths. -/
theorem rotations_orthogonal (L : ScalarLib α) (tmp : SkMatrix3D α)
    (hunit : ∀ t : α, (L.SkScalarSinCos t).1 ^ 2 + (L.SkScalarSinCos t).2 ^ 2 = 1)
    (ops : List (MatrixOp α)) (u v : SkVector3D α) :
    linearBlock (runMatrixOps L tmp SkMatrix3D.reset ops)
        * (linearBlock (runMatrixOps L tmp SkMatrix3D.reset ops)).transpose = 1
    ∧ SkUnit3D.Dot ((runMatrixOps L tmp SkMatrix3D.reset ops).mapVector u)
        ((runMatrixOps L tmp SkMatrix3D.reset ops).mapVector v) = SkUnit3D.Dot u v
    ∧ SkUnit3D.Dot ((runMatrixOps L tmp SkMatrix3D.reset ops).mapVector u)
        ((runMatrixOps L tmp SkMatrix3D.reset ops).mapVector u) = SkUnit3D.Dot u u := by
  have h0 : linearBlock (SkMatrix3D.reset : SkMatrix3D α)
      * (linearBlock (SkMatrix3D.reset : SkMatrix3D α)).transpose = 1 := by
    ext i j
    simp only [Matrix.mul_apply, Matrix.transpose_apply, Fin.sum_univ_three]
    fin_cases i <;> fin_cases j <;>
      simp [linearBlock, SkMatrix3D.reset, Matrix.vecHead, Matrix.vecTail]
  have h := runMatrixOps_orthogonal L tmp hunit ops _ h0
  exact ⟨h, mapVector_dot_of_orthogonal _ h u v, mapVector_dot_of_orthogonal _ h u u⟩

/-- The rational library returns points of the unit circle. -/
theorem ratLib_unit (t : ℚ) :
    (ratLib.SkScalarSinCos t).1 ^ 2 + (ratLib.SkScalarSinCos t).2 ^ 2 = 1 := by
  have h : (1 : ℚ) + t * t ≠ 0 := by nlinarith [mul_self_nonneg t]
  simp only [ratLib]
  field_simp
  ring

/-- Witness of C18: three rotations and a translation applied to the
identity, carrying the vectors `(1, 2, 3)` and `(4, 5, 6)`, whose dot product
is `32`. -/
theorem rotations_orthogonal_witness :
    linearBlock (runMatrixOps ratLib SkMatrix3D.reset SkMatrix3D.reset turnOps)
        * (linearBlock (runMatrixOps ratLib SkMatrix3D.reset SkMatrix3D.reset turnOps)).transpose
      = 1
    ∧ SkUnit3D.Dot
        ((runMatrixOps ratLib SkMatrix3D.reset SkMatrix3D.reset turnOps).mapVector ⟨1, 2, 3⟩)
        ((runMatrixOps ratLib SkMatrix3D.reset SkMatrix3D.reset turnOps).mapVector ⟨4, 5, 6⟩)
      = 32 := by
  have h := rotations_orthogonal ratLib SkMatrix3D.reset ratLib_unit turnOps ⟨1, 2, 3⟩ ⟨4, 5, 6⟩
  refine ⟨h.1, ?_⟩
  rw [h.2.1]
  norm_num [SkUnit3D.Dot]

/-! ## The parallel zenith in binary32 arithmetic -/

set_option maxRecDepth 100000

/-- The forward vector of the camera with axis `(2, 3, 6)`: the axis times the
rounded `1 / 7`. -/
theorem forwardVector32_parallel :
    forwardVector32 ⟨zero32, zero32, zero32⟩ parallelCamera32
      = { fX := Binary32.finite 9586981 (-25), fY := Binary32.finite 14380472 (-25),
          fZ := Binary32.finite 14380472 (-24) } := by
  decide

/-- The orthogonalised zenith of that camera: `(-2^-22, -2^-21, -2^-20)`. -/
theorem orthogonalZenith32_parallel :
    orthogonalZenith32 ⟨zero32, zero32, zero32⟩ parallelCamera32
      = { fX := Binary32.finite (-8388608) (-45), fY := Binary32.finite (-8388608) (-44),
          fZ := Binary32.finite (-8388608) (-43) } := by
  simp only [orthogonalZenith32, forwardVector32_parallel]
  decide

/-- What `normalize` returns and writes for that orthogonalised zenith. -/
theorem normalize32_parallel :
    normalize32 (orthogonalZenith32 ⟨zero32, zero32, zero32⟩ parallelCamera32)
        (orthogonalZenith32 ⟨zero32, zero32, zero32⟩ parallelCamera32)
      = (Binary32.finite 9610358 (-43),
          { fX := Binary32.finite (-14644354) (-26), fY := Binary32.finite (-14644354) (-25),
            fZ := Binary32.finite (-14644354) (-24) }) := by
  rw [orthogonalZenith32_parallel]
  decide

/-- C17, as stated, fails in the arithmetic of the float build: for the camera
whose zenith equals its axis `(2, 3, 6)`, with observer `(1, 2, 3)`, the
square root is exact (`sqrt 49 = 7`) but the products round, the orthogonalised
zenith is `(-2^-22, -2^-21, -2^-20)` and not the zero vector, `normalize`
reports the non-zero magnitude `9610358 · 2^-43` and overwrites its output
with a unit vector, about `(-0.218, -0.436, -0.873)`, and row 1 of the stored
descriptor is about `(1.226, 2.166, 4.333)` where `observer.y·f` is about
`(0.571, 0.857, 1.714)`. -/
theorem doUpdate32_parallel_zenith :
    parallelCamera32.fZenith = parallelCamera32.fAxis
    ∧ parallelCamera32.fAxis ≠ ⟨zero32, zero32, zero32⟩
    ∧ (normalize32 parallelCamera32.fAxis ⟨zero32, zero32, zero32⟩).1 = Binary32.ofInt 7
    ∧ orthogonalZenith32 ⟨zero32, zero32, zero32⟩ parallelCamera32
        = { fX := Binary32.finite (-8388608) (-45), fY := Binary32.finite (-8388608) (-44),
            fZ := Binary32.finite (-8388608) (-43) }
    ∧ orthogonalZenith32 ⟨zero32, zero32, zero32⟩ parallelCamera32 ≠ ⟨zero32, zero32, zero32⟩
    ∧ (normalize32 (orthogonalZenith32 ⟨zero32, zero32, zero32⟩ parallelCamera32)
          (orthogonalZenith32 ⟨zero32, zero32, zero32⟩ parallelCamera32)).1
        = Binary32.finite 9610358 (-43)
    ∧ (normalize32 (orthogonalZenith32 ⟨zero32, zero32, zero32⟩ parallelCamera32)
          (orthogonalZenith32 ⟨zero32, zero32, zero32⟩ parallelCamera32)).1 ≠ zero32
    ∧ upVector32 ⟨zero32, zero32, zero32⟩ parallelCamera32
        = { fX := Binary32.finite (-14644354) (-26), fY := Binary32.finite (-14644354) (-25),
            fZ := Binary32.finite (-14644354) (-24) }
    ∧ upVector32 ⟨zero32, zero32, zero32⟩ parallelCamera32 ≠ ⟨zero32, zero32, zero32⟩
    ∧ ((doUpdate32 ⟨zero32, zero32, zero32⟩ parallelCamera32).fOrientation.skewY,
        (doUpdate32 ⟨zero32, zero32, zero32⟩ parallelCamera32).fOrientation.scaleY,
        (doUpdate32 ⟨zero32, zero32, zero32⟩ parallelCamera32).fOrientation.transY)
        = (Binary32.finite 10285124 (-23), Binary32.finite 9086751 (-22),
            Binary32.finite 9086751 (-21))
    ∧ (Binary32.mul parallelCamera32.fObserver.fY
          (forwardVector32 ⟨zero32, zero32, zero32⟩ parallelCamera32).fX,
        Binary32.mul parallelCamera32.fObserver.fY
          (forwardVector32 ⟨zero32, zero32, zero32⟩ parallelCamera32).fY,
        Binary32.mul parallelCamera32.fObserver.fY
          (forwardVector32 ⟨zero32, zero32, zero32⟩ parallelCamera32).fZ)
        = (Binary32.finite 9586981 (-24), Binary32.finite 14380472 (-24),
            Binary32.finite 14380472 (-23)) := by
  have hu : upVector32 ⟨zero32, zero32, zero32⟩ parallelCamera32
      = { fX := Binary32.finite (-14644354) (-26), fY := Binary32.finite (-14644354) (-25),
          fZ := Binary32.finite (-14644354) (-24) } := by
    simp only [upVector32, normalize32_parallel]
  refine ⟨by decide, by decide, by decide, orthogonalZenith32_parallel, ?_, ?_, ?_, hu, ?_,
    ?_, ?_⟩
  · rw [orthogonalZenith32_parallel]
    decide
  · rw [normalize32_parallel]
  · rw [normalize32_parallel]
    decide
  · rw [hu]
    decide
  · simp only [doUpdate32, hu, forwardVector32_parallel]
    decide
  · rw [forwardVector32_parallel]
    decide

end SkCamera
